import Mathlib

/-!
SD-card SPI driver (`src/sd.c`): shallow embedding

The driver talks to memory-mapped registers and to an SD card on the SPI bus.
The embedding threads an explicit machine state through every function.

* Registers are natural numbers; 32-bit masks are applied where the C code
  applies them.
* The card is a byte stream `card : Nat → Nat`: entry `pos` is the byte the
  card shifts out during the next bus write.
* `log` is the sequence of externally visible actions (stores to the SPI data
  register, stores to `GPIOB_ODR`, calls of `delay`), oldest first.
* The three unbounded loops (`_rest`, the ACMD41 loop of `_initialize`,
  `_wait_for_data_token`) take a fuel argument bounding the number of
  iterations; a run that exhausts it ends in `Outcome.fuelOut` carrying the
  state reached so far.
-/

namespace SD

/-- An externally visible action of the driver. -/
inductive BusEvent where
  /-- A byte stored to `SPI2_DR` by `sd_write`. -/
  | write (b : Nat)
  /-- A value stored to `GPIOB_ODR`; bit 12 is the chip-select pin PB12. -/
  | odr (v : Nat)
  /-- A call `delay(ms)`. -/
  | delay (ms : Nat)
  deriving DecidableEq, Repr

/-- Machine state seen by `sd.c`. The registers `GPIOA_IDR`, `GPIOB_CRH`, `GPIOB_ODR` and
`RCC_APB1ENR` are macros of `gpio.h`, which is not among the sources; like the `SPI2_*`
registers they are 32-bit memory-mapped words and may hold any value on entry. -/
structure State where
  /-- Input data register of port A; bit 8 is the card-present sense. -/
  GPIOA_IDR : Nat
  /-- Configuration register of pins PB8..PB15; bits 19:16 configure PB12. -/
  GPIOB_CRH : Nat
  /-- Output data register of port B; bit 12 drives chip-select. -/
  GPIOB_ODR : Nat
  /-- Peripheral clock enable register. -/
  RCC_APB1ENR : Nat
  /-- SPI control register 1. -/
  SPI2_CR1 : Nat
  /-- SPI control register 2. -/
  SPI2_CR2 : Nat
  /-- Receive side of the SPI data register: the byte last shifted in. -/
  SPI2_DR : Nat
  /-- Bytes the card shifts out, indexed by bus write. -/
  card : Nat → Nat
  /-- Number of bus writes made so far (index of the next card byte). -/
  pos : Nat
  /-- Externally visible actions so far, oldest first. -/
  log : List BusEvent
  /-- The `static uint8_t resp[NUM_R3_RESP_BYTES]` of `_read_R3`. -/
  resp : Nat → Nat
  /-- The memory `buffer` points to in `sd_read_block`, by offset. -/
  buffer : Nat → Nat

/-- Result of running code that contains an unbounded loop. -/
inductive Outcome (α : Type) where
  /-- The code returned `a` in state `s`. -/
  | done (a : α) (s : State)
  /-- The iteration budget ran out in state `s`, inside a loop. -/
  | fuelOut (s : State)

/-- The state an outcome ends in, returned or not. -/
def Outcome.state {α : Type} : Outcome α → State
  | .done _ s => s
  | .fuelOut s => s

def SPI_CLK : Nat := 1 <<< 14
def RESET_DUMMY_CYCLES : Nat := 10
def START_BITS : Nat := 0x40
def STOP_BITS : Nat := 0x01
def NUM_ARGS : Nat := 4
def NUM_R3_RESP_BYTES : Nat := 5
def READ_BYTE_DELAY : Nat := 8
def CARD_IDLE : Nat := 1
def CMD_OK : Nat := 0
def CMD_17_OK : Nat := 0xFE

/-- Modelled from the spec: `SD_BLOCK_SIZE` is defined in `sd.h`, which is not
among the sources; the block is one 512-byte SD sector. -/
def SD_BLOCK_SIZE : Nat := 512

/-- The C `struct command`. -/
structure command where
  cmd_bits : Nat
  args : List Nat
  crc : Nat
  deriving DecidableEq, Repr

def GO_IDLE_STATE : command := ⟨0, [0x00, 0x00, 0x00, 0x00], 0x4A⟩
def SEND_IF_COND : command := ⟨8, [0x00, 0x00, 0x01, 0xAA], 0x43⟩
def APP_CMD : command := ⟨55, [0x00, 0x00, 0x00, 0x00], 0xFF⟩
def SD_SEND_OP_COND : command := ⟨41, [0x40, 0x00, 0x00, 0xA0], 0xFF⟩
def READ_OCR : command := ⟨58, [0x00, 0x00, 0x00, 0x00], 0xFF⟩
def READ_SINGLE_BLOCK : command := ⟨17, [0x00, 0x00, 0x00, 0x00], 0xFF⟩

/-- The six command templates of `sd.c`. -/
def templates : List command :=
  [GO_IDLE_STATE, SEND_IF_COND, APP_CMD, SD_SEND_OP_COND, READ_OCR, READ_SINGLE_BLOCK]

/-- The C expression `r &= ~m` on a 32-bit register. -/
def clearBits (r m : Nat) : Nat := r &&& (0xFFFFFFFF ^^^ m)

/-- Modelled from the spec: `delay` is declared in `delay.h`, which is not among
the sources; it is a blocking delay with no effect on the registers. -/
def delay (ms : Nat) (s : State) : State :=
  { s with log := s.log ++ [BusEvent.delay ms] }

/-- `sd_write`: store the byte to the data register and wait for the transfer
(the poll of `SPI2_SR` is taken to end); the card's next byte is then in the
receive register. -/
def sd_write (data : Nat) (s : State) : State :=
  { s with
    SPI2_DR := s.card s.pos
    pos := s.pos + 1
    log := s.log ++ [BusEvent.write (data % 256)] }

/-- `sd_read`: the data register, as a `uint8_t`. -/
def sd_read (s : State) : Nat := s.SPI2_DR % 256

/-- `sd_inserted`: bit 8 of `GPIOA_IDR`. -/
def sd_inserted (s : State) : Bool := s.GPIOA_IDR &&& (1 <<< 8) != 0

def _gpio_init (s : State) : State :=
  let s1 := { s with GPIOB_CRH := clearBits s.GPIOB_CRH ((1 <<< 18) ||| (1 <<< 22) ||| (1 <<< 30)) }
  let s2 := { s1 with GPIOB_CRH := s1.GPIOB_CRH ||| ((1 <<< 17) ||| (1 <<< 21) ||| (1 <<< 29)) }
  { s2 with GPIOB_CRH := s2.GPIOB_CRH ||| ((1 <<< 23) ||| (1 <<< 31)) }

/-- `_spi_init1`; the empty `for` loop after the clock enable has no effect on the state. -/
def _spi_init1 (s : State) : State :=
  let s1 := { s with RCC_APB1ENR := s.RCC_APB1ENR ||| SPI_CLK }
  let s2 := { s1 with SPI2_CR1 := s1.SPI2_CR1 ||| (3 <<< 4) }
  let s3 := { s2 with SPI2_CR1 := s2.SPI2_CR1 ||| (1 <<< 9) }
  let s4 := { s3 with SPI2_CR2 := s3.SPI2_CR2 ||| (1 <<< 2) }
  let s5 := { s4 with SPI2_CR1 := s4.SPI2_CR1 ||| (1 <<< 2) }
  { s5 with SPI2_CR1 := s5.SPI2_CR1 ||| (1 <<< 6) }

def _spi_init2 (s : State) : State :=
  let s0 := delay 10 s
  let s1 := { s0 with SPI2_CR1 := clearBits s0.SPI2_CR1 (1 <<< 6) }
  let s2 := { s1 with GPIOB_CRH := s1.GPIOB_CRH ||| (1 <<< 19) }
  let s3 := { s2 with SPI2_CR1 := clearBits s2.SPI2_CR1 (3 <<< 4) }
  let s4 := { s3 with SPI2_CR1 := s3.SPI2_CR1 ||| (1 <<< 5) }
  let s5 := { s4 with SPI2_CR1 := clearBits s4.SPI2_CR1 (1 <<< 9) }
  { s5 with SPI2_CR1 := s5.SPI2_CR1 ||| (1 <<< 6) }

/-- Store `v` to `GPIOB_ODR`. -/
def setODR (v : Nat) (s : State) : State :=
  { s with GPIOB_ODR := v, log := s.log ++ [BusEvent.odr v] }

def _dummy_write : Nat → State → State
  | 0, s => s
  | n + 1, s => _dummy_write n (sd_write 0xFF s)

/-- `_rest`: `while (sd_read() != 0xFF) _dummy_write(1);` with at most `fuel`
iterations. -/
def _rest : Nat → State → Outcome Unit
  | 0, s => if sd_read s != 0xFF then .fuelOut s else .done () s
  | fuel + 1, s => if sd_read s != 0xFF then _rest fuel (_dummy_write 1 s) else .done () s

/-- The `for` loop of `_read_R1`, with `n` iterations left and `resp` the byte
read last. -/
def _read_R1_loop : Nat → Nat → State → Nat × State
  | 0, resp, s => (resp, s)
  | n + 1, resp, s =>
    if resp &&& (1 <<< 7) != 0 then
      let s1 := _dummy_write 1 s
      _read_R1_loop n (sd_read s1) s1
    else (resp, s)

def _read_R1 (s : State) : Nat × State :=
  _read_R1_loop READ_BYTE_DELAY (sd_read s) s

/-- The `for` loop of `_read_R3`: `n` iterations left, next index `i`. -/
def _read_R3_loop : Nat → Nat → State → State
  | 0, _, s => s
  | n + 1, i, s =>
    let s1 := _dummy_write 1 s
    _read_R3_loop n (i + 1) { s1 with resp := Function.update s1.resp i (sd_read s1) }

/-- `_read_R3`: fills the static `resp`; the returned pointer is `State.resp`
of the result. -/
def _read_R3 (s : State) : State :=
  let r := _read_R1 s
  let s1 := { r.2 with resp := Function.update r.2.resp 0 r.1 }
  _read_R3_loop (NUM_R3_RESP_BYTES - 1) 1 s1

def _power_on (s : State) : State :=
  let s1 := setODR (s.GPIOB_ODR ||| (1 <<< 12)) s
  let s2 := _dummy_write RESET_DUMMY_CYCLES s1
  delay 10 s2

/-- The argument loop of `_send_cmd`: `args` is `none` for a NULL pointer. -/
def _send_cmd_args (cmd : command) (args : Option (List Nat)) : Nat → Nat → State → State
  | 0, _, s => s
  | n + 1, i, s =>
    match args with
    | some a => _send_cmd_args cmd args n (i + 1) (sd_write (a.getD i 0) s)
    | none => _send_cmd_args cmd args n (i + 1) (sd_write (cmd.args.getD i 0) s)

def _send_cmd (fuel : Nat) (cmd : command) (args : Option (List Nat)) (s : State) :
    Outcome Unit :=
  match _rest fuel s with
  | .fuelOut s1 => .fuelOut s1
  | .done _ s1 =>
    let s2 := sd_write (START_BITS ||| cmd.cmd_bits) s1
    let s3 := _send_cmd_args cmd args NUM_ARGS 0 s2
    .done () (sd_write ((cmd.crc <<< 1) ||| STOP_BITS) s3)

def _reset (fuel : Nat) (s : State) : Outcome Bool :=
  let s1 := _dummy_write 3 s
  match _send_cmd fuel GO_IDLE_STATE none s1 with
  | .fuelOut s2 => .fuelOut s2
  | .done _ s2 =>
    let r := _read_R1 s2
    .done (r.1 == CARD_IDLE) r.2

def _verify (fuel : Nat) (s : State) : Outcome Bool :=
  match _send_cmd fuel SEND_IF_COND none s with
  | .fuelOut s1 => .fuelOut s1
  | .done _ s1 =>
    let s2 := _read_R3 s1
    .done (s2.resp (NUM_R3_RESP_BYTES - 1) == 0xAA) s2

/-- One pass through the body of the `do … while` of `_initialize`, with the
value of the `_read_R1()` in its condition. -/
def acmd41_round (fuel : Nat) (s : State) : Outcome Nat :=
  match _send_cmd fuel APP_CMD none s with
  | .fuelOut s1 => .fuelOut s1
  | .done _ s1 =>
    let s2 := (_read_R1 s1).2
    match _send_cmd fuel SD_SEND_OP_COND none s2 with
    | .fuelOut s3 => .fuelOut s3
    | .done _ s3 =>
      let r := _read_R1 s3
      .done r.1 r.2

/-- The `do … while (_read_R1() == CARD_IDLE)` of `_initialize`; it returns the
R1 byte it exited on. The second argument bounds the number of repetitions. -/
def acmd41_loop (fuel : Nat) : Nat → State → Outcome Nat
  | 0, s =>
    match acmd41_round fuel s with
    | .fuelOut s1 => .fuelOut s1
    | .done r s1 => if r == CARD_IDLE then .fuelOut s1 else .done r s1
  | k + 1, s =>
    match acmd41_round fuel s with
    | .fuelOut s1 => .fuelOut s1
    | .done r s1 => if r == CARD_IDLE then acmd41_loop fuel k s1 else .done r s1

def _initialize (fuel : Nat) (s : State) : Outcome Bool :=
  match acmd41_loop fuel fuel s with
  | .fuelOut s1 => .fuelOut s1
  | .done _ s1 =>
    match _send_cmd fuel READ_OCR none s1 with
    | .fuelOut s2 => .fuelOut s2
    | .done _ s2 =>
      let s3 := _read_R3 s2
      .done (s3.resp 0 == CMD_OK && s3.resp 1 &&& (1 <<< 6) != 0) s3

/-- `_wait_for_data_token`: `while (sd_read() != token) _dummy_write(1);` with
at most `fuel` iterations. -/
def _wait_for_data_token (token : Nat) : Nat → State → Outcome Bool
  | 0, s => if sd_read s != token then .fuelOut s else .done true s
  | fuel + 1, s =>
    if sd_read s != token then _wait_for_data_token token fuel (_dummy_write 1 s)
    else .done true s

/-- The part of `sd_init` between the card-present test and `_reset`. -/
def sd_init_setup (s : State) : State :=
  let s1 := _power_on (_spi_init1 (_gpio_init s))
  setODR (clearBits s1.GPIOB_ODR (1 <<< 12)) s1

def sd_init (fuel : Nat) (s : State) : Outcome Bool :=
  if !sd_inserted s then .done false s
  else
    match _reset fuel (sd_init_setup s) with
    | .fuelOut s2 => .fuelOut s2
    | .done false s2 => .done false s2
    | .done true s2 =>
      match _verify fuel s2 with
      | .fuelOut s3 => .fuelOut s3
      | .done false s3 => .done false s3
      | .done true s3 =>
        match _initialize fuel s3 with
        | .fuelOut s4 => .fuelOut s4
        | .done false s4 => .done false s4
        | .done true s4 => .done true (_spi_init2 s4)

/-- The `for` loop of `sd_read_block` that fills `buffer`: `n` iterations
left, next index `i`. -/
def sd_read_block_loop : Nat → Nat → State → State
  | 0, _, s => s
  | n + 1, i, s =>
    let s1 := _dummy_write 1 s
    sd_read_block_loop n (i + 1) { s1 with buffer := Function.update s1.buffer i (sd_read s1) }

/-- The four argument bytes `sd_read_block` computes from `addr`, which is
first promoted from `uint16_t` to a 32-bit `int`. -/
def sd_read_block_args (addr : Nat) : List Nat :=
  (List.range NUM_ARGS).map fun i => ((addr % 65536) >>> (24 - i * 8)) &&& 0xFF

def sd_read_block (fuel : Nat) (addr : Nat) (s : State) : Outcome Unit :=
  match _send_cmd fuel READ_SINGLE_BLOCK (some (sd_read_block_args addr)) s with
  | .fuelOut s1 => .fuelOut s1
  | .done _ s1 =>
    let r := _read_R1 s1
    if r.1 == CMD_OK then
      match _wait_for_data_token CMD_17_OK fuel r.2 with
      | .fuelOut s3 => .fuelOut s3
      | .done false s3 => .done () s3
      | .done true s3 => .done () (_dummy_write 2 (sd_read_block_loop SD_BLOCK_SIZE 0 s3))
    else .done () r.2

/-- Log entries of `n` filler writes. -/
def fill (n : Nat) : List BusEvent := List.replicate n (BusEvent.write 0xFF)

/-- Log entries of the six-byte frame of `cmd` with argument bytes `a`. -/
def frame (cmd : command) (a : List Nat) : List BusEvent :=
  [BusEvent.write ((START_BITS ||| cmd.cmd_bits) % 256),
   BusEvent.write (a.getD 0 0 % 256), BusEvent.write (a.getD 1 0 % 256),
   BusEvent.write (a.getD 2 0 % 256), BusEvent.write (a.getD 3 0 % 256),
   BusEvent.write (((cmd.crc <<< 1) ||| STOP_BITS) % 256)]

/-! ### Concrete states and auxiliary definitions used in the statements -/

/-- The state `_send_cmd` leaves once the line is at rest in `s`. -/
def sentState (cmd : command) (args : Option (List Nat)) (s : State) : State :=
  sd_write ((cmd.crc <<< 1) ||| STOP_BITS)
    (_send_cmd_args cmd args NUM_ARGS 0 (sd_write (START_BITS ||| cmd.cmd_bits) s))

/-- A state whose data register holds `0xFF`, with a card that keeps the line high. -/
def idleState : State :=
  ⟨0x100, 0x44444444, 0, 0, 0, 0, 0xFF, fun _ => 0xFF, 0, [], fun _ => 0, fun _ => 0⟩

/-- A state with no card in the slot. -/
def absentState : State :=
  ⟨0, 0x44444444, 0, 0, 0, 0, 0, fun _ => 0xFF, 0, [], fun _ => 0, fun _ => 0⟩

/-- A card answering as in Scenario A: `0x01` to GO_IDLE_STATE, an R3 ending in
`0xAA` to SEND_IF_COND, `0x01` then `0x00` to SD_SEND_OP_COND, and
`00 40 00 00 00` to READ_OCR. -/
def cardA : Nat → Nat := fun i =>
  if i = 19 then 0x01 else if i = 27 then 0x01 else if i = 28 then 0x00
  else if i = 29 then 0x00 else if i = 30 then 0x01 else if i = 31 then 0xAA
  else if i = 39 then 0x01 else if i = 47 then 0x01 else if i = 55 then 0x01
  else if i = 63 then 0x00 else if i = 71 then 0x00 else if i = 72 then 0x40
  else if i = 73 then 0x00 else if i = 74 then 0x00 else if i = 75 then 0x00 else 0xFF

/-- Reset-state registers, card A in the slot. -/
def stateA : State :=
  ⟨0x100, 0x44444444, 0, 0, 0, 0, 0, cardA, 0, [], fun _ => 0, fun _ => 0⟩

/-- A card that never drives the line: every byte is `0xFF`. -/
def silentState : State :=
  ⟨0x100, 0x44444444, 0, 0, 0, 0, 0, fun _ => 0xFF, 0, [], fun _ => 0, fun _ => 0⟩

/-- A card answering `0x01` to GO_IDLE_STATE and an R3 ending in `0x00` to
SEND_IF_COND (Scenario B). -/
def cardB : Nat → Nat := fun i =>
  if i = 19 then 0x01 else if i = 27 then 0x01 else if i = 28 then 0x00
  else if i = 29 then 0x00 else if i = 30 then 0x01 else if i = 31 then 0x00 else 0xFF

/-- Reset-state registers, card B in the slot. -/
def stateB : State :=
  ⟨0x100, 0x44444444, 0, 0, 0, 0, 0, cardB, 0, [], fun _ => 0, fun _ => 0⟩

/-- State of the silent card once the GO_IDLE_STATE frame is out. -/
def silentState1 : State :=
  sentState GO_IDLE_STATE none (_dummy_write 3 (sd_init_setup silentState))

/-- State of card B once the GO_IDLE_STATE frame is out. -/
def stateB1 : State := sentState GO_IDLE_STATE none (_dummy_write 3 (sd_init_setup stateB))

/-- State of card B once the SEND_IF_COND frame is out. -/
def stateB2 : State := (_send_cmd 1 SEND_IF_COND none (_read_R1 stateB1).2).state

/-- A card answering READ_SINGLE_BLOCK with R1 `0x00`, the token `0xFE`, then data. -/
def cardR : Nat → Nat := fun i =>
  if i = 6 then 0x00 else if i = 7 then 0xFE else if 8 ≤ i then (7 * i) % 256 else 0xFF

/-- Bus at rest, card R in the slot, buffer filled with `0xEE`. -/
def stateR : State :=
  ⟨0x100, 0, 0, 0, 0, 0, 0xFF, cardR, 0, [], fun _ => 0, fun _ => 0xEE⟩

/-- State of card R once the READ_SINGLE_BLOCK frame for address `0x1234` is out. -/
def stateR1 : State := sentState READ_SINGLE_BLOCK (some (sd_read_block_args 0x1234)) stateR

/-- State of card R when the wait for the token returns. -/
def stateR3 : State := (_wait_for_data_token CMD_17_OK 1 (_read_R1 stateR1).2).state

/-- State of the silent bus once the READ_SINGLE_BLOCK frame for address `0` is out. -/
def idleState1 : State := sentState READ_SINGLE_BLOCK (some (sd_read_block_args 0)) idleState


/-- A stretch of log without any store to `GPIOB_ODR`. -/
def BusOnly (l : List BusEvent) : Prop := ∀ e ∈ l, ∀ v, e ≠ BusEvent.odr v

/-- The log of `t` is the log of `s` followed by bus writes and delays only. -/
def Ext (s t : State) : Prop := ∃ more, t.log = s.log ++ more ∧ BusOnly more

/-- State after `n` passes through the body of the ACMD41 loop. -/
def acmd41_after (fuel : Nat) : Nat → State → State
  | 0, s => s
  | n + 1, s => acmd41_after fuel n (acmd41_round fuel s).state

/-- Log of one pass through the ACMD41 loop body: the APP_CMD frame and the
SD_SEND_OP_COND frame, each after `q.1`, `q.2.2.1` drain writes and followed by
`q.2.1`, `q.2.2.2` poll writes. -/
def roundLog (q : Nat × Nat × Nat × Nat) : List BusEvent :=
  fill q.1 ++ frame APP_CMD APP_CMD.args ++ fill q.2.1 ++
    (fill q.2.2.1 ++ frame SD_SEND_OP_COND SD_SEND_OP_COND.args ++ fill q.2.2.2)

/-- Log of consecutive passes through the ACMD41 loop body. -/
def roundsLog : List (Nat × Nat × Nat × Nat) → List BusEvent
  | [] => []
  | q :: qs => roundLog q ++ roundsLog qs

/-- A card that answers the first SD_SEND_OP_COND with `0x05` (idle and illegal
command) and READ_OCR with `00 40 00 00 00`. -/
def cardC : Nat → Nat := fun i =>
  if i = 19 then 0x01 else if i = 27 then 0x01 else if i = 28 then 0x00
  else if i = 29 then 0x00 else if i = 30 then 0x01 else if i = 31 then 0xAA
  else if i = 39 then 0x01 else if i = 47 then 0x05 else if i = 55 then 0x00
  else if i = 56 then 0x40 else if i = 57 then 0x00 else if i = 58 then 0x00
  else if i = 59 then 0x00 else 0xFF

/-- Reset-state registers, card C in the slot. -/
def stateC : State :=
  ⟨0x100, 0x44444444, 0, 0, 0, 0, 0, cardC, 0, [], fun _ => 0, fun _ => 0⟩

/-- State of card C when `_reset` returns. -/
def stateC2 : State := (_reset 1 (sd_init_setup stateC)).state

/-- State of card C when `_verify` returns: the ACMD41 loop starts here. -/
def stateC3 : State := (_verify 1 stateC2).state

/-- State of card A once the GO_IDLE_STATE frame is out. -/
def stateA1 : State := sentState GO_IDLE_STATE none (_dummy_write 3 (sd_init_setup stateA))

/-- State of card A once the SEND_IF_COND frame is out. -/
def stateA1v : State := (_send_cmd 1 SEND_IF_COND none (_read_R1 stateA1).2).state

/-- State of card A when the ACMD41 loop exits. -/
def stateA4 : State := (acmd41_loop 1 1 (_read_R3 stateA1v)).state

/-- State of card A once the READ_OCR frame is out. -/
def stateA5 : State := (_send_cmd 1 READ_OCR none stateA4).state

/-- The six configuration registers hold the same values in `s` and `t`. -/
def SameRegs (s t : State) : Prop :=
  t.GPIOA_IDR = s.GPIOA_IDR ∧ t.GPIOB_CRH = s.GPIOB_CRH ∧ t.GPIOB_ODR = s.GPIOB_ODR ∧
  t.RCC_APB1ENR = s.RCC_APB1ENR ∧ t.SPI2_CR1 = s.SPI2_CR1 ∧ t.SPI2_CR2 = s.SPI2_CR2

/-- A relation between an earlier and a later state that bus traffic cannot break:
it is reflexive and transitive, and holds across a bus write and across a store to the
static `resp`. -/
structure BusInv (R : State → State → Prop) : Prop where
  refl : ∀ s, R s s
  trans : ∀ s t u, R s t → R t u → R s u
  write : ∀ b s, R s (sd_write b s)
  resp : ∀ r s, R s { s with resp := r }

/-- The byte `sd_read` returns after `j` further bus writes: the data register on entry
for `j = 0`, the card byte received for the `j`-th write otherwise. -/
def lineByte (s : State) (j : Nat) : Nat :=
  if j = 0 then s.SPI2_DR % 256 else s.card (s.pos + (j - 1)) % 256

/-- A line that stays low for the register content and two card bytes, then goes high. -/
def busyState : State :=
  ⟨0x100, 0, 0, 0, 0, 0, 0x00, fun i => if i < 2 then 0x00 else 0xFF, 0, [],
    fun _ => 0, fun _ => 0⟩

/-- A card answering READ_SINGLE_BLOCK with R1 `0x00` and never sending a token. -/
def cardN : Nat → Nat := fun i => if i = 6 then 0x00 else 0xFF

/-- Bus at rest, card N in the slot, buffer filled with `0xEE`. -/
def stateN : State :=
  ⟨0x100, 0, 0, 0, 0, 0, 0xFF, cardN, 0, [], fun _ => 0, fun _ => 0xEE⟩

/-- State of card N once the READ_SINGLE_BLOCK frame for address `0` is out. -/
def stateN1 : State := sentState READ_SINGLE_BLOCK (some (sd_read_block_args 0)) stateN

/-- State in which a second call of `sd_init` starts after the call on card A returned
true. -/
def stateASecond : State := (sd_init 1 stateA).state

/-- The value an outcome returned, if it returned. -/
def Outcome.result {α : Type} : Outcome α → Option α
  | .done a _ => some a
  | .fuelOut _ => none

/-- The bytes written to the bus, in order, according to a log. -/
def written : List BusEvent → List Nat
  | [] => []
  | BusEvent.write b :: l => b :: written l
  | BusEvent.odr _ :: l => written l
  | BusEvent.delay _ :: l => written l

/-- From here on the card sends the same bytes in `s` as in `t`, and since `s0` and `t0`
the same bytes have been written to the bus in both runs. -/
def Sim0 (s0 t0 s t : State) : Prop :=
  (∀ i, s.card (s.pos + i) = t.card (t.pos + i)) ∧
  ∃ W, written s.log = written s0.log ++ W ∧ written t.log = written t0.log ++ W

/-- `Sim0`, and the byte last read from the bus is the same in `s` and `t`. -/
def Sim (s0 t0 s t : State) : Prop := Sim0 s0 t0 s t ∧ sd_read s = sd_read t

/-- Two outcomes agree: both returned the same value or both ran out of fuel, in states
related by `R`. -/
def OSim {α : Type} (R : State → State → Prop) (o1 o2 : Outcome α) : Prop :=
  o1.result = o2.result ∧ R o1.state o2.state

/-- Card A answering every handshake anew: its 76 bytes repeat for ever. -/
def cardRepeat : Nat → Nat := fun i => cardA (i % 76)

/-- Reset-state registers, the repeating card A in the slot. -/
def stateRepeat : State :=
  ⟨0x100, 0x44444444, 0, 0, 0, 0, 0, cardRepeat, 0, [], fun _ => 0, fun _ => 0⟩

end SD

namespace Buttons

/-- What `buttons.c` reads and keeps: the input data register of port B and the
`static bool btn_was_pressed[NUM_BUTTONS]` of `btn_released`, indexed from 0 and all
false at start-up. `GPIOB_IDR` is a macro of `gpio.h`, which is not among the sources. -/
structure State where
  GPIOB_IDR : Nat
  btn_was_pressed : Nat → Bool

/-- `btn_pressed`: the pin of `btn` reads low. -/
def btn_pressed (s : State) (btn : Nat) : Bool := !(s.GPIOB_IDR &&& (1 <<< btn) != 0)

/-- `btn_released`. The enumerator `BTN_LEFT` of `buttons.h`, which is not among the
sources, is a parameter; `btn` is the value of an enumerator of `enum Button`. -/
def btn_released (BTN_LEFT btn : Nat) (s : State) : Bool × State :=
  let i := btn - BTN_LEFT
  if !btn_pressed s btn && s.btn_was_pressed i then
    (true, { s with btn_was_pressed := Function.update s.btn_was_pressed i false })
  else if btn_pressed s btn then
    (false, { s with btn_was_pressed := Function.update s.btn_was_pressed i true })
  else (false, s)

/-- The flags after a sequence of calls `btn_released(btn)`, each made while the input
register holds `idr`; a call is the pair `(btn, idr)`. -/
def flagsAfter (BTN_LEFT : Nat) : (Nat → Bool) → List (Nat × Nat) → (Nat → Bool)
  | f, [] => f
  | f, c :: cs => flagsAfter BTN_LEFT (btn_released BTN_LEFT c.1 ⟨c.2, f⟩).2.btn_was_pressed cs

/-- Whether `btn` was pressed at the last call made for it in `cs`; `start` if there is
no such call. -/
def lastPressed (btn : Nat) : Bool → List (Nat × Nat) → Bool
  | start, [] => start
  | start, c :: cs =>
    lastPressed btn (if c.1 = btn then btn_pressed ⟨c.2, fun _ => false⟩ btn else start) cs

end Buttons

namespace SD

/-! ## Theorems -/

theorem rest_idle (fuel : Nat) (s : State) (h : sd_read s = 0xFF) :
    _rest fuel s = .done () s := by
  cases fuel <;> simp [_rest, h]

theorem send_cmd_idle (fuel : Nat) (cmd : command) (args : Option (List Nat)) (s : State)
    (h : sd_read s = 0xFF) : _send_cmd fuel cmd args s = .done () (sentState cmd args s) := by
  simp [_send_cmd, rest_idle fuel s h, sentState]

theorem sentState_log (cmd : command) (args : Option (List Nat)) (s : State) :
    (sentState cmd args s).log = s.log ++ frame cmd (args.getD cmd.args) := by
  cases args <;> simp [sentState, _send_cmd_args, NUM_ARGS, sd_write, frame]

theorem sentState_pos (cmd : command) (args : Option (List Nat)) (s : State) :
    (sentState cmd args s).pos = s.pos + 6 := by
  cases args <;> simp [sentState, _send_cmd_args, NUM_ARGS, sd_write]

/-- C1. For each of the six command templates, sent with no argument override while the
data register holds `0xFF`, `_send_cmd` returns having made exactly six bus writes:
`0x40 | cmd_bits`, the template's four argument bytes in order, and `(crc << 1) | 1`
truncated to 8 bits. The first byte has top two bits `01`, the last has low bit `1`;
GO_IDLE_STATE goes out as `40 00 00 00 00 95` and SEND_IF_COND as `48 00 00 01 AA 87`. -/
theorem send_cmd_template_frame (fuel : Nat) (cmd : command) (s : State)
    (hc : cmd ∈ templates) (h : s.SPI2_DR = 0xFF) :
    ∃ s', _send_cmd fuel cmd none s = .done () s' ∧
      s'.log = s.log ++
        [BusEvent.write (0x40 ||| cmd.cmd_bits),
         BusEvent.write (cmd.args.getD 0 0), BusEvent.write (cmd.args.getD 1 0),
         BusEvent.write (cmd.args.getD 2 0), BusEvent.write (cmd.args.getD 3 0),
         BusEvent.write (((cmd.crc <<< 1) ||| 1) % 256)] ∧
      s'.pos = s.pos + 6 ∧
      (0x40 ||| cmd.cmd_bits) >>> 6 = 1 ∧ (((cmd.crc <<< 1) ||| 1) % 256) % 2 = 1 ∧
      (cmd = GO_IDLE_STATE → s'.log = s.log ++ [BusEvent.write 0x40, BusEvent.write 0x00,
        BusEvent.write 0x00, BusEvent.write 0x00, BusEvent.write 0x00, BusEvent.write 0x95]) ∧
      (cmd = SEND_IF_COND → s'.log = s.log ++ [BusEvent.write 0x48, BusEvent.write 0x00,
        BusEvent.write 0x00, BusEvent.write 0x01, BusEvent.write 0xAA, BusEvent.write 0x87]) := by
  have hr : sd_read s = 0xFF := by simp [sd_read, h]
  have hlog : (sentState cmd none s).log = s.log ++
        [BusEvent.write (0x40 ||| cmd.cmd_bits),
         BusEvent.write (cmd.args.getD 0 0), BusEvent.write (cmd.args.getD 1 0),
         BusEvent.write (cmd.args.getD 2 0), BusEvent.write (cmd.args.getD 3 0),
         BusEvent.write (((cmd.crc <<< 1) ||| 1) % 256)] := by
    rw [sentState_log]
    simp only [templates, List.mem_cons, List.mem_singleton, List.not_mem_nil, or_false] at hc
    rcases hc with rfl | rfl | rfl | rfl | rfl | rfl <;> congr 1
  have hbits : (0x40 ||| cmd.cmd_bits) >>> 6 = 1 ∧ (((cmd.crc <<< 1) ||| 1) % 256) % 2 = 1 := by
    simp only [templates, List.mem_cons, List.mem_singleton, List.not_mem_nil, or_false] at hc
    rcases hc with rfl | rfl | rfl | rfl | rfl | rfl <;> decide
  refine ⟨sentState cmd none s, send_cmd_idle fuel cmd none s hr, hlog, sentState_pos _ _ _,
    hbits.1, hbits.2, ?_, ?_⟩
  · intro e; rw [hlog, e]; rfl
  · intro e; rw [hlog, e]; rfl

theorem send_cmd_template_frame_witness :
    SEND_IF_COND ∈ templates ∧ idleState.SPI2_DR = 0xFF ∧
    ∃ s', _send_cmd 0 SEND_IF_COND none idleState = .done () s' ∧
      s'.log = idleState.log ++
        [BusEvent.write (0x40 ||| SEND_IF_COND.cmd_bits),
         BusEvent.write (SEND_IF_COND.args.getD 0 0), BusEvent.write (SEND_IF_COND.args.getD 1 0),
         BusEvent.write (SEND_IF_COND.args.getD 2 0), BusEvent.write (SEND_IF_COND.args.getD 3 0),
         BusEvent.write (((SEND_IF_COND.crc <<< 1) ||| 1) % 256)] ∧
      s'.pos = idleState.pos + 6 ∧
      (0x40 ||| SEND_IF_COND.cmd_bits) >>> 6 = 1 ∧
      (((SEND_IF_COND.crc <<< 1) ||| 1) % 256) % 2 = 1 ∧
      (SEND_IF_COND = GO_IDLE_STATE → s'.log = idleState.log ++ [BusEvent.write 0x40,
        BusEvent.write 0x00, BusEvent.write 0x00, BusEvent.write 0x00, BusEvent.write 0x00,
        BusEvent.write 0x95]) ∧
      (SEND_IF_COND = SEND_IF_COND → s'.log = idleState.log ++ [BusEvent.write 0x48,
        BusEvent.write 0x00, BusEvent.write 0x00, BusEvent.write 0x01, BusEvent.write 0xAA,
        BusEvent.write 0x87]) :=
  ⟨by decide, rfl, send_cmd_template_frame 0 SEND_IF_COND idleState (by decide) rfl⟩

/-! ### Filler writes -/

theorem dummy_write_one (s : State) : _dummy_write 1 s = sd_write 0xFF s := rfl

theorem dummy_write_succ (n : Nat) (s : State) :
    _dummy_write (n + 1) s = _dummy_write n (_dummy_write 1 s) := rfl

theorem dummy_write_add (a b : Nat) (s : State) :
    _dummy_write (a + b) s = _dummy_write b (_dummy_write a s) := by
  induction a generalizing s with
  | zero => simp [_dummy_write]
  | succ a ih => rw [Nat.add_right_comm, dummy_write_succ, ih]; rfl

theorem dummy_write_log (n : Nat) (s : State) :
    (_dummy_write n s).log = s.log ++ fill n := by
  induction n generalizing s with
  | zero => simp [_dummy_write, fill]
  | succ n ih => simp [_dummy_write, ih, sd_write, fill, List.replicate_succ]

theorem dummy_write_pos (n : Nat) (s : State) : (_dummy_write n s).pos = s.pos + n := by
  induction n generalizing s with
  | zero => simp [_dummy_write]
  | succ n ih => simp [_dummy_write, ih, sd_write]; omega

theorem dummy_write_card (n : Nat) (s : State) : (_dummy_write n s).card = s.card := by
  induction n generalizing s with
  | zero => simp [_dummy_write]
  | succ n ih => simp [_dummy_write, ih, sd_write]

theorem dummy_write_buffer (n : Nat) (s : State) : (_dummy_write n s).buffer = s.buffer := by
  induction n generalizing s with
  | zero => simp [_dummy_write]
  | succ n ih => simp [_dummy_write, ih, sd_write]

theorem dummy_write_resp (n : Nat) (s : State) : (_dummy_write n s).resp = s.resp := by
  induction n generalizing s with
  | zero => simp [_dummy_write]
  | succ n ih => simp [_dummy_write, ih, sd_write]

theorem dummy_write_DR (n : Nat) (s : State) :
    (_dummy_write (n + 1) s).SPI2_DR = s.card (s.pos + n) := by
  induction n generalizing s with
  | zero => simp [_dummy_write, sd_write]
  | succ n ih =>
    rw [dummy_write_succ, ih]
    simp [_dummy_write, sd_write]; congr 1; omega

theorem dummy_write_regs (n : Nat) (s : State) :
    (_dummy_write n s).GPIOA_IDR = s.GPIOA_IDR ∧ (_dummy_write n s).GPIOB_CRH = s.GPIOB_CRH ∧
    (_dummy_write n s).GPIOB_ODR = s.GPIOB_ODR ∧
    (_dummy_write n s).RCC_APB1ENR = s.RCC_APB1ENR ∧
    (_dummy_write n s).SPI2_CR1 = s.SPI2_CR1 ∧ (_dummy_write n s).SPI2_CR2 = s.SPI2_CR2 := by
  induction n generalizing s with
  | zero => simp [_dummy_write]
  | succ n ih => simp [_dummy_write, ih, sd_write]

theorem dummy_write_ODR (n : Nat) (s : State) : (_dummy_write n s).GPIOB_ODR = s.GPIOB_ODR :=
  (dummy_write_regs n s).2.2.1

/-! ### The unbounded polls are filler writes -/

theorem rest_state (fuel : Nat) (s : State) :
    ∃ k, k ≤ fuel ∧ (_rest fuel s).state = _dummy_write k s := by
  induction fuel generalizing s with
  | zero => exact ⟨0, le_refl _, by unfold _rest; split <;> rfl⟩
  | succ n ih =>
    unfold _rest
    split
    · obtain ⟨k, hk, e⟩ := ih (_dummy_write 1 s)
      exact ⟨k + 1, by omega, by rw [e]; rfl⟩
    · exact ⟨0, by omega, rfl⟩

theorem rest_done_idle (fuel : Nat) (s s1 : State) (h : _rest fuel s = .done () s1) :
    sd_read s1 = 0xFF := by
  induction fuel generalizing s with
  | zero =>
    unfold _rest at h
    split at h
    · cases h
    · cases h; simp_all
  | succ n ih =>
    unfold _rest at h
    split at h
    · exact ih _ h
    · cases h; simp_all

theorem read_R1_loop_state (n resp : Nat) (s : State) :
    ∃ k, k ≤ n ∧ (_read_R1_loop n resp s).2 = _dummy_write k s := by
  induction n generalizing s resp with
  | zero => exact ⟨0, le_refl _, rfl⟩
  | succ n ih =>
    unfold _read_R1_loop
    split
    · obtain ⟨k, hk, e⟩ := ih (sd_read (_dummy_write 1 s)) (_dummy_write 1 s)
      exact ⟨k + 1, by omega, by simp only []; rw [e]; rfl⟩
    · exact ⟨0, by omega, rfl⟩

theorem read_R1_state (s : State) :
    ∃ k, k ≤ 8 ∧ (_read_R1 s).2 = _dummy_write k s :=
  read_R1_loop_state READ_BYTE_DELAY (sd_read s) s

theorem wait_state (token fuel : Nat) (s : State) :
    ∃ k, k ≤ fuel ∧ (_wait_for_data_token token fuel s).state = _dummy_write k s := by
  induction fuel generalizing s with
  | zero => exact ⟨0, le_refl _, by unfold _wait_for_data_token; split <;> rfl⟩
  | succ n ih =>
    unfold _wait_for_data_token
    split
    · obtain ⟨k, hk, e⟩ := ih (_dummy_write 1 s)
      exact ⟨k + 1, by omega, by rw [e]; rfl⟩
    · exact ⟨0, by omega, rfl⟩

theorem wait_done (token fuel : Nat) (s s1 : State) (b : Bool)
    (h : _wait_for_data_token token fuel s = .done b s1) : b = true ∧ sd_read s1 = token := by
  induction fuel generalizing s with
  | zero =>
    unfold _wait_for_data_token at h
    split at h
    · cases h
    · cases h; simp_all
  | succ n ih =>
    unfold _wait_for_data_token at h
    split at h
    · exact ih _ h
    · cases h; simp_all

/-! ### Frames -/

theorem send_cmd_done (fuel : Nat) (cmd : command) (args : Option (List Nat)) (s s1 : State)
    (h : _send_cmd fuel cmd args s = .done () s1) :
    ∃ s0, _rest fuel s = .done () s0 ∧ s1 = sentState cmd args s0 := by
  unfold _send_cmd at h
  split at h
  · cases h
  · rename_i u s0 e
    cases h
    exact ⟨s0, e, rfl⟩

theorem send_cmd_fuelOut (fuel : Nat) (cmd : command) (args : Option (List Nat)) (s s1 : State)
    (h : _send_cmd fuel cmd args s = .fuelOut s1) : _rest fuel s = .fuelOut s1 := by
  unfold _send_cmd at h
  split at h
  · rename_i s0 e
    cases h; exact e
  · cases h

theorem sentState_buffer (cmd : command) (args : Option (List Nat)) (s : State) :
    (sentState cmd args s).buffer = s.buffer := by
  cases args <;> simp [sentState, _send_cmd_args, NUM_ARGS, sd_write]

/-! ### The stages of `sd_init` -/

theorem reset_eq (fuel : Nat) (s s1 : State)
    (h : _send_cmd fuel GO_IDLE_STATE none (_dummy_write 3 s) = .done () s1) :
    _reset fuel s = .done ((_read_R1 s1).1 == CARD_IDLE) (_read_R1 s1).2 := by
  simp [_reset, h]

theorem reset_done (fuel : Nat) (s s' : State) (b : Bool) (h : _reset fuel s = .done b s') :
    ∃ s1, _send_cmd fuel GO_IDLE_STATE none (_dummy_write 3 s) = .done () s1 ∧
      b = ((_read_R1 s1).1 == CARD_IDLE) ∧ s' = (_read_R1 s1).2 := by
  simp only [_reset] at h
  split at h
  · cases h
  · rename_i u s1 e
    cases h
    exact ⟨s1, e, rfl, rfl⟩

theorem verify_eq (fuel : Nat) (s s1 : State)
    (h : _send_cmd fuel SEND_IF_COND none s = .done () s1) :
    _verify fuel s = .done ((_read_R3 s1).resp 4 == 0xAA) (_read_R3 s1) := by
  simp [_verify, h, NUM_R3_RESP_BYTES]

theorem verify_done (fuel : Nat) (s s' : State) (b : Bool) (h : _verify fuel s = .done b s') :
    ∃ s1, _send_cmd fuel SEND_IF_COND none s = .done () s1 ∧
      b = ((_read_R3 s1).resp 4 == 0xAA) ∧ s' = _read_R3 s1 := by
  simp only [_verify] at h
  split at h
  · cases h
  · rename_i u s1 e
    cases h
    exact ⟨s1, e, rfl, rfl⟩

theorem stage3_eq (fuel r : Nat) (s s1 s2 : State)
    (h1 : acmd41_loop fuel fuel s = .done r s1)
    (h2 : _send_cmd fuel READ_OCR none s1 = .done () s2) :
    _initialize fuel s =
      .done ((_read_R3 s2).resp 0 == CMD_OK && (_read_R3 s2).resp 1 &&& (1 <<< 6) != 0)
        (_read_R3 s2) := by
  simp [ _initialize, h1, h2]

theorem stage3_done (fuel : Nat) (s s' : State) (b : Bool)
    (h : _initialize fuel s = .done b s') :
    ∃ r s1 s2, acmd41_loop fuel fuel s = .done r s1 ∧
      _send_cmd fuel READ_OCR none s1 = .done () s2 ∧
      b = ((_read_R3 s2).resp 0 == CMD_OK && (_read_R3 s2).resp 1 &&& (1 <<< 6) != 0) ∧
      s' = _read_R3 s2 := by
  simp only [ _initialize] at h
  split at h
  · cases h
  · rename_i r s1 e1
    split at h
    · cases h
    · rename_i u s2 e2
      cases h
      exact ⟨r, s1, s2, e1, e2, rfl, rfl⟩

theorem sd_init_absent (fuel : Nat) (s : State) (h : sd_inserted s = false) :
    sd_init fuel s = .done false s := by
  simp [sd_init, h]

theorem sd_init_reset_fail (fuel : Nat) (s s2 : State) (hi : sd_inserted s = true)
    (h : _reset fuel (sd_init_setup s) = .done false s2) :
    sd_init fuel s = .done false s2 := by
  simp [sd_init, hi, h]

theorem sd_init_verify_fail (fuel : Nat) (s s2 s3 : State) (hi : sd_inserted s = true)
    (h : _reset fuel (sd_init_setup s) = .done true s2)
    (hv : _verify fuel s2 = .done false s3) :
    sd_init fuel s = .done false s3 := by
  simp [sd_init, hi, h, hv]

theorem sd_init_stage3 (fuel : Nat) (s s2 s3 s4 : State) (b : Bool)
    (hi : sd_inserted s = true)
    (h : _reset fuel (sd_init_setup s) = .done true s2)
    (hv : _verify fuel s2 = .done true s3)
    (hn : _initialize fuel s3 = .done b s4) :
    sd_init fuel s = .done b (if b then _spi_init2 s4 else s4) := by
  cases b <;> simp [sd_init, hi, h, hv, hn]

theorem sd_init_true (fuel : Nat) (s s' : State) (h : sd_init fuel s = .done true s') :
    sd_inserted s = true ∧ ∃ s2 s3 s4, _reset fuel (sd_init_setup s) = .done true s2 ∧
      _verify fuel s2 = .done true s3 ∧ _initialize fuel s3 = .done true s4 ∧
      s' = _spi_init2 s4 := by
  unfold sd_init at h
  split at h
  · cases h
  · rename_i hi
    refine ⟨by simpa using hi, ?_⟩
    split at h
    · cases h
    · cases h
    · rename_i s2 e2
      split at h
      · cases h
      · cases h
      · rename_i s3 e3
        split at h
        · cases h
        · cases h
        · rename_i s4 e4
          cases h
          exact ⟨s2, s3, s4, e2, e3, e4, rfl⟩

theorem bit_set_eq (x i : Nat) : (x &&& (1 <<< i) != 0) = x.testBit i := by
  rw [Nat.one_shiftLeft, Nat.and_two_pow]
  cases x.testBit i <;> simp

theorem sd_inserted_eq (s : State) : sd_inserted s = s.GPIOA_IDR.testBit 8 :=
  bit_set_eq _ 8

/-! ### Log of each stage -/

theorem sd_init_setup_log (s : State) :
    (sd_init_setup s).log = s.log ++ [BusEvent.odr (s.GPIOB_ODR ||| (1 <<< 12))] ++ fill 10 ++
      [BusEvent.delay 10,
       BusEvent.odr (clearBits (s.GPIOB_ODR ||| (1 <<< 12)) (1 <<< 12))] := by
  simp [sd_init_setup, _power_on, setODR, delay, dummy_write_log, RESET_DUMMY_CYCLES,
    _spi_init1, _gpio_init, dummy_write_ODR]

theorem rest_log (fuel : Nat) (s : State) :
    ∃ k, k ≤ fuel ∧ (_rest fuel s).state.log = s.log ++ fill k := by
  obtain ⟨k, hk, e⟩ := rest_state fuel s
  exact ⟨k, hk, by rw [e, dummy_write_log]⟩

theorem send_cmd_log (fuel : Nat) (cmd : command) (args : Option (List Nat)) (s s1 : State)
    (h : _send_cmd fuel cmd args s = .done () s1) :
    ∃ k, k ≤ fuel ∧ s1.log = s.log ++ fill k ++ frame cmd (args.getD cmd.args) := by
  obtain ⟨s0, h0, e⟩ := send_cmd_done fuel cmd args s s1 h
  obtain ⟨k, hk, e0⟩ := rest_log fuel s
  rw [h0] at e0
  exact ⟨k, hk, by rw [e, sentState_log, show s0.log = _ from e0]⟩

theorem read_R1_log (s : State) :
    ∃ k, k ≤ 8 ∧ (_read_R1 s).2.log = s.log ++ fill k := by
  obtain ⟨k, hk, e⟩ := read_R1_state s
  exact ⟨k, hk, by rw [e, dummy_write_log]⟩

theorem read_R3_loop_log (n i : Nat) (s : State) :
    (_read_R3_loop n i s).log = s.log ++ fill n := by
  induction n generalizing s i with
  | zero => simp [_read_R3_loop, fill]
  | succ n ih =>
    simp [_read_R3_loop, ih, dummy_write_log, fill, List.replicate_succ]

theorem read_R3_log (s : State) : (_read_R3 s).log = (_read_R1 s).2.log ++ fill 4 := by
  simp [_read_R3, read_R3_loop_log, NUM_R3_RESP_BYTES]

/-- C2. `sd_init` returns true exactly when the card is present, the R1 byte read after
GO_IDLE_STATE is `0x01`, byte 4 of the R3 read after SEND_IF_COND is `0xAA`, and the R3
read after READ_OCR has byte 0 equal to `0x00` and bit 6 of byte 1 set; each check is
made in the state the previous one left. -/
theorem sd_init_true_iff (fuel : Nat) (s s' : State) (b : Bool)
    (h : sd_init fuel s = .done b s') :
    b = true ↔
      (s.GPIOA_IDR.testBit 8 = true ∧
        ∃ s1 s2 s3 s4 r,
          _send_cmd fuel GO_IDLE_STATE none (_dummy_write 3 (sd_init_setup s)) = .done () s1 ∧
          (_read_R1 s1).1 = 0x01 ∧
          _send_cmd fuel SEND_IF_COND none (_read_R1 s1).2 = .done () s2 ∧
          (_read_R3 s2).resp 4 = 0xAA ∧
          acmd41_loop fuel fuel (_read_R3 s2) = .done r s3 ∧
          _send_cmd fuel READ_OCR none s3 = .done () s4 ∧
          (_read_R3 s4).resp 0 = 0x00 ∧ ((_read_R3 s4).resp 1).testBit 6 = true) := by
  constructor
  · intro hb
    subst hb
    obtain ⟨hi, s2', s3', s4', h2, h3, h4, -⟩ := sd_init_true fuel s s' h
    obtain ⟨s1, e1, b1, rfl⟩ := reset_done _ _ _ _ h2
    obtain ⟨s2, e2, b2, rfl⟩ := verify_done _ _ _ _ h3
    obtain ⟨r, s3, s4, e3, e4, b4, rfl⟩ := stage3_done _ _ _ _ h4
    rw [sd_inserted_eq] at hi
    refine ⟨hi, s1, s2, s3, s4, r, e1, ?_, e2, ?_, e3, e4, ?_⟩
    · simpa [CARD_IDLE] using b1.symm
    · simpa using b2.symm
    · have := b4.symm
      rw [bit_set_eq] at this
      simpa [CMD_OK] using this
  · rintro ⟨hi, s1, s2, s3, s4, r, e1, r1, e2, r2, e3, e4, r3, r4⟩
    rw [← sd_inserted_eq] at hi
    have h2 := reset_eq fuel _ s1 e1
    have h3 := verify_eq fuel _ s2 e2
    have h4 := stage3_eq fuel r _ s3 s4 e3 e4
    rw [bit_set_eq] at h4
    simp only [r1, r2, r3, r4, CARD_IDLE, CMD_OK, beq_self_eq_true, Bool.and_self] at h2 h3 h4
    have := sd_init_stage3 fuel s _ _ _ true hi h2 h3 h4
    rw [h] at this
    cases this
    rfl

theorem sd_init_true_iff_witness :
    sd_init 1 stateA = .done true (sd_init 1 stateA).state ∧
    (true = true ↔
      (stateA.GPIOA_IDR.testBit 8 = true ∧
        ∃ s1 s2 s3 s4 r,
          _send_cmd 1 GO_IDLE_STATE none (_dummy_write 3 (sd_init_setup stateA)) = .done () s1 ∧
          (_read_R1 s1).1 = 0x01 ∧
          _send_cmd 1 SEND_IF_COND none (_read_R1 s1).2 = .done () s2 ∧
          (_read_R3 s2).resp 4 = 0xAA ∧
          acmd41_loop 1 1 (_read_R3 s2) = .done r s3 ∧
          _send_cmd 1 READ_OCR none s3 = .done () s4 ∧
          (_read_R3 s4).resp 0 = 0x00 ∧ ((_read_R3 s4).resp 1).testBit 6 = true)) :=
  ⟨rfl, sd_init_true_iff 1 stateA _ true rfl⟩

/-- C3. Short-circuit on failure. With the card present and the GO_IDLE_STATE frame sent:
if the R1 read after it is not `0x01`, `sd_init` returns false in the very state that
R1 poll left, whose log holds the GO_IDLE_STATE frame and filler writes only; if it is
`0x01` and byte 4 of the R3 read after SEND_IF_COND is not `0xAA`, `sd_init` returns
false in the very state that R3 read left, whose log ends with its four filler writes
and holds no frame other than GO_IDLE_STATE and SEND_IF_COND. -/
theorem sd_init_short_circuit (fuel : Nat) (s s1 : State)
    (hi : s.GPIOA_IDR.testBit 8 = true)
    (h1 : _send_cmd fuel GO_IDLE_STATE none (_dummy_write 3 (sd_init_setup s)) = .done () s1) :
    ((_read_R1 s1).1 ≠ 0x01 →
      sd_init fuel s = .done false (_read_R1 s1).2 ∧
      ∃ d k, (_read_R1 s1).2.log =
        (sd_init_setup s).log ++ fill 3 ++ fill d ++ frame GO_IDLE_STATE GO_IDLE_STATE.args ++
          fill k) ∧
    ((_read_R1 s1).1 = 0x01 → ∀ s2,
      _send_cmd fuel SEND_IF_COND none (_read_R1 s1).2 = .done () s2 →
      (_read_R3 s2).resp 4 ≠ 0xAA →
      sd_init fuel s = .done false (_read_R3 s2) ∧
      (_read_R3 s2).log = (_read_R1 s2).2.log ++ fill 4 ∧
      ∃ d k d' k', (_read_R3 s2).log =
        (sd_init_setup s).log ++ fill 3 ++ fill d ++ frame GO_IDLE_STATE GO_IDLE_STATE.args ++
          fill k ++ fill d' ++ frame SEND_IF_COND SEND_IF_COND.args ++ fill k' ++ fill 4) := by
  rw [← sd_inserted_eq] at hi
  have h2 := reset_eq fuel _ s1 h1
  obtain ⟨d, -, ld⟩ := send_cmd_log _ _ _ _ _ h1
  obtain ⟨k, -, lk⟩ := read_R1_log s1
  rw [ld, dummy_write_log] at lk
  constructor
  · intro hr
    have hb : ((_read_R1 s1).1 == CARD_IDLE) = false := by simpa [CARD_IDLE] using hr
    rw [hb] at h2
    exact ⟨sd_init_reset_fail fuel s _ hi h2, d, k, lk⟩
  · intro hr s2 e2 hv
    have hb : ((_read_R1 s1).1 == CARD_IDLE) = true := by simpa [CARD_IDLE] using hr
    rw [hb] at h2
    have h3 := verify_eq fuel _ s2 e2
    have hb3 : ((_read_R3 s2).resp 4 == 0xAA) = false := by simpa using hv
    rw [hb3] at h3
    obtain ⟨d', -, ld'⟩ := send_cmd_log _ _ _ _ _ e2
    obtain ⟨k', -, lk'⟩ := read_R1_log s2
    refine ⟨sd_init_verify_fail fuel s _ _ hi h2 h3, read_R3_log s2, d, k, d', k', ?_⟩
    rw [read_R3_log, lk', ld', lk]
    rfl

theorem sd_init_short_circuit_witness :
    (silentState.GPIOA_IDR.testBit 8 = true ∧ (_read_R1 silentState1).1 ≠ 0x01 ∧
      sd_init 0 silentState = .done false (_read_R1 silentState1).2) ∧
    (stateB.GPIOA_IDR.testBit 8 = true ∧ (_read_R1 stateB1).1 = 0x01 ∧
      (_read_R3 stateB2).resp 4 = 0x00 ∧
      sd_init 1 stateB = .done false (_read_R3 stateB2)) :=
  ⟨⟨by decide, by decide,
    ((sd_init_short_circuit 0 silentState silentState1 (by decide) rfl).1 (by decide)).1⟩,
   ⟨by decide, by decide, by decide,
    ((sd_init_short_circuit 1 stateB stateB1 (by decide) rfl).2 (by decide) stateB2
      rfl (by decide)).1⟩⟩

/-- C4. With the card-present sense (bit 8 of `GPIOA_IDR`) clear, `sd_init` returns false
at once: the state is untouched, so the log gains no entry and every register keeps its
value. -/
theorem sd_init_card_absent (fuel : Nat) (s : State) (h : s.GPIOA_IDR.testBit 8 = false) :
    ∃ s', sd_init fuel s = .done false s' ∧ s' = s ∧ s'.log = s.log ∧ s'.pos = s.pos ∧
      s'.GPIOB_CRH = s.GPIOB_CRH ∧ s'.GPIOB_ODR = s.GPIOB_ODR ∧
      s'.RCC_APB1ENR = s.RCC_APB1ENR ∧ s'.SPI2_CR1 = s.SPI2_CR1 ∧
      s'.SPI2_CR2 = s.SPI2_CR2 ∧ s'.SPI2_DR = s.SPI2_DR := by
  rw [← sd_inserted_eq] at h
  exact ⟨s, sd_init_absent fuel s h, rfl, rfl, rfl, rfl, rfl, rfl, rfl, rfl, rfl⟩

theorem sd_init_card_absent_witness :
    absentState.GPIOA_IDR.testBit 8 = false ∧ absentState.log = [] ∧
    ∃ s', sd_init 5 absentState = .done false s' ∧ s' = absentState ∧
      s'.log = absentState.log ∧ s'.pos = absentState.pos ∧
      s'.GPIOB_CRH = absentState.GPIOB_CRH ∧ s'.GPIOB_ODR = absentState.GPIOB_ODR ∧
      s'.RCC_APB1ENR = absentState.RCC_APB1ENR ∧ s'.SPI2_CR1 = absentState.SPI2_CR1 ∧
      s'.SPI2_CR2 = absentState.SPI2_CR2 ∧ s'.SPI2_DR = absentState.SPI2_DR :=
  ⟨by decide, rfl, sd_init_card_absent 5 absentState (by decide)⟩

/-! ### `sd_read_block` -/

theorem fill_append (a b : Nat) : fill a ++ fill b = fill (a + b) := by
  simp [fill, List.append_replicate_replicate]

theorem rest_buffer (fuel : Nat) (s : State) : (_rest fuel s).state.buffer = s.buffer := by
  obtain ⟨k, -, e⟩ := rest_state fuel s
  rw [e, dummy_write_buffer]

theorem send_cmd_buffer (fuel : Nat) (cmd : command) (args : Option (List Nat)) (s : State) :
    (_send_cmd fuel cmd args s).state.buffer = s.buffer := by
  have hb := rest_buffer fuel s
  unfold _send_cmd
  split
  · rename_i s1 e
    rw [e] at hb; exact hb
  · rename_i u s1 e
    rw [e] at hb
    exact (sentState_buffer cmd args s1).trans hb

theorem read_R1_buffer (s : State) : (_read_R1 s).2.buffer = s.buffer := by
  obtain ⟨k, -, e⟩ := read_R1_state s
  rw [e, dummy_write_buffer]

theorem wait_buffer (token fuel : Nat) (s : State) :
    (_wait_for_data_token token fuel s).state.buffer = s.buffer := by
  obtain ⟨k, -, e⟩ := wait_state token fuel s
  rw [e, dummy_write_buffer]

theorem wait_log (token fuel : Nat) (s : State) :
    ∃ k, k ≤ fuel ∧ (_wait_for_data_token token fuel s).state.log = s.log ++ fill k := by
  obtain ⟨k, hk, e⟩ := wait_state token fuel s
  exact ⟨k, hk, by rw [e, dummy_write_log]⟩

theorem read_block_loop_log (n i : Nat) (s : State) :
    (sd_read_block_loop n i s).log = s.log ++ fill n := by
  induction n generalizing s i with
  | zero => simp [sd_read_block_loop, fill]
  | succ n ih =>
    simp [sd_read_block_loop, ih, dummy_write_log, fill, List.replicate_succ]

theorem read_block_loop_pos (n i : Nat) (s : State) :
    (sd_read_block_loop n i s).pos = s.pos + n := by
  induction n generalizing s i with
  | zero => simp [sd_read_block_loop]
  | succ n ih =>
    simp [sd_read_block_loop, ih, dummy_write_pos]; omega

theorem read_block_loop_card (n i : Nat) (s : State) :
    (sd_read_block_loop n i s).card = s.card := by
  induction n generalizing s i with
  | zero => simp [sd_read_block_loop]
  | succ n ih => simp [sd_read_block_loop, ih, dummy_write_card]

theorem read_block_loop_buffer (n i j : Nat) (s : State) :
    (sd_read_block_loop n i s).buffer j =
      if i ≤ j ∧ j < i + n then s.card (s.pos + (j - i)) % 256 else s.buffer j := by
  induction n generalizing s i with
  | zero =>
    have : ¬ (i ≤ j ∧ j < i + 0) := by omega
    rw [if_neg this]; rfl
  | succ n ih =>
    simp only [sd_read_block_loop]
    rw [ih]
    simp only [dummy_write_card, dummy_write_pos, dummy_write_buffer]
    by_cases hj : j = i
    · subst hj
      have h1 : ¬ (j + 1 ≤ j ∧ j < j + 1 + n) := by omega
      have h2 : j ≤ j ∧ j < j + (n + 1) := by omega
      simp [h1, h2, sd_read, dummy_write_one, sd_write]
    · by_cases hr : i + 1 ≤ j ∧ j < i + 1 + n
      · have h2 : i ≤ j ∧ j < i + (n + 1) := by omega
        have e : s.pos + 1 + (j - (i + 1)) = s.pos + (j - i) := by omega
        simp [hr, h2, e]
      · have h2 : ¬ (i ≤ j ∧ j < i + (n + 1)) := by omega
        simp [hr, h2, Function.update, hj]

theorem read_block_fail (fuel addr : Nat) (s s1 : State)
    (h : _send_cmd fuel READ_SINGLE_BLOCK (some (sd_read_block_args addr)) s = .done () s1)
    (hr : (_read_R1 s1).1 ≠ 0) :
    sd_read_block fuel addr s = .done () (_read_R1 s1).2 := by
  simp [sd_read_block, h, CMD_OK, hr]

theorem read_block_wait (fuel addr : Nat) (s s1 : State)
    (h : _send_cmd fuel READ_SINGLE_BLOCK (some (sd_read_block_args addr)) s = .done () s1)
    (hr : (_read_R1 s1).1 = 0) :
    sd_read_block fuel addr s =
      match _wait_for_data_token CMD_17_OK fuel (_read_R1 s1).2 with
      | .fuelOut s3 => .fuelOut s3
      | .done false s3 => .done () s3
      | .done true s3 => .done () (_dummy_write 2 (sd_read_block_loop SD_BLOCK_SIZE 0 s3)) := by
  simp [sd_read_block, h, CMD_OK, hr]

theorem read_block_token (fuel addr : Nat) (s s1 s3 : State)
    (h : _send_cmd fuel READ_SINGLE_BLOCK (some (sd_read_block_args addr)) s = .done () s1)
    (hr : (_read_R1 s1).1 = 0)
    (hw : _wait_for_data_token CMD_17_OK fuel (_read_R1 s1).2 = .done true s3) :
    sd_read_block fuel addr s =
      .done () (_dummy_write 2 (sd_read_block_loop SD_BLOCK_SIZE 0 s3)) := by
  rw [read_block_wait fuel addr s s1 h hr, hw]

theorem read_block_fuelOut (fuel addr : Nat) (s s' : State)
    (h : sd_read_block fuel addr s = .fuelOut s') :
    _send_cmd fuel READ_SINGLE_BLOCK (some (sd_read_block_args addr)) s = .fuelOut s' ∨
    ∃ s1, _send_cmd fuel READ_SINGLE_BLOCK (some (sd_read_block_args addr)) s = .done () s1 ∧
      (_read_R1 s1).1 = 0 ∧
      _wait_for_data_token CMD_17_OK fuel (_read_R1 s1).2 = .fuelOut s' := by
  cases e : _send_cmd fuel READ_SINGLE_BLOCK (some (sd_read_block_args addr)) s with
  | fuelOut s1 =>
    left
    simp [sd_read_block, e] at h
    rw [h]
  | done u s1 =>
    right
    refine ⟨s1, rfl, ?_⟩
    by_cases hr : (_read_R1 s1).1 = 0
    · refine ⟨hr, ?_⟩
      rw [read_block_wait fuel addr s s1 e hr] at h
      split at h
      · rename_i s3 e3
        cases h; exact e3
      · cases h
      · cases h
    · rw [read_block_fail fuel addr s s1 e hr] at h
      cases h

/-- C5. `sd_read_block` leaves the buffer alone unless R1 was `0x00` and the token `0xFE`
was read. If the R1 polled after the READ_SINGLE_BLOCK frame is not `0x00`, it returns in
the state that poll left, with the buffer unchanged. A run cut short inside a loop has
the buffer unchanged. The buffer is unchanged after the frame, after the R1 poll and all
through the wait for the token. In any run that changed the buffer, R1 was `0x00` and the
wait ended on a byte equal to `0xFE`, at which point the buffer was still unchanged. -/
theorem sd_read_block_buffer (fuel addr : Nat) (s : State) :
    (∀ s1, _send_cmd fuel READ_SINGLE_BLOCK (some (sd_read_block_args addr)) s = .done () s1 →
      (_read_R1 s1).1 ≠ 0x00 →
      sd_read_block fuel addr s = .done () (_read_R1 s1).2 ∧
      (_read_R1 s1).2.buffer = s.buffer) ∧
    (∀ s', sd_read_block fuel addr s = .fuelOut s' → s'.buffer = s.buffer) ∧
    ((_send_cmd fuel READ_SINGLE_BLOCK (some (sd_read_block_args addr)) s).state.buffer
        = s.buffer ∧
      ∀ s1, _send_cmd fuel READ_SINGLE_BLOCK (some (sd_read_block_args addr)) s = .done () s1 →
        (_read_R1 s1).2.buffer = s.buffer ∧
        (_wait_for_data_token CMD_17_OK fuel (_read_R1 s1).2).state.buffer = s.buffer) ∧
    ((sd_read_block fuel addr s).state.buffer ≠ s.buffer →
      ∃ s1 s3,
        _send_cmd fuel READ_SINGLE_BLOCK (some (sd_read_block_args addr)) s = .done () s1 ∧
        (_read_R1 s1).1 = 0x00 ∧
        _wait_for_data_token CMD_17_OK fuel (_read_R1 s1).2 = .done true s3 ∧
        sd_read s3 = 0xFE ∧ s3.buffer = s.buffer) := by
  have hsend := send_cmd_buffer fuel READ_SINGLE_BLOCK (some (sd_read_block_args addr)) s
  have hmid : ∀ s1,
      _send_cmd fuel READ_SINGLE_BLOCK (some (sd_read_block_args addr)) s = .done () s1 →
      (_read_R1 s1).2.buffer = s.buffer ∧
      (_wait_for_data_token CMD_17_OK fuel (_read_R1 s1).2).state.buffer = s.buffer := by
    intro s1 e
    have h1 : s1.buffer = s.buffer := by rw [e] at hsend; exact hsend
    have h2 : (_read_R1 s1).2.buffer = s.buffer := (read_R1_buffer s1).trans h1
    exact ⟨h2, (wait_buffer _ _ _).trans h2⟩
  have hout : ∀ s', sd_read_block fuel addr s = .fuelOut s' → s'.buffer = s.buffer := by
    intro s' h
    rcases read_block_fuelOut fuel addr s s' h with e | ⟨s1, e, -, ew⟩
    · rw [e] at hsend; exact hsend
    · have := (hmid s1 e).2
      rw [ew] at this; exact this
  refine ⟨fun s1 e hr => ⟨read_block_fail fuel addr s s1 e hr, (hmid s1 e).1⟩, hout,
    ⟨hsend, hmid⟩, ?_⟩
  intro hne
  cases e : _send_cmd fuel READ_SINGLE_BLOCK (some (sd_read_block_args addr)) s with
  | fuelOut s1 =>
    exfalso; apply hne
    have h : sd_read_block fuel addr s = .fuelOut s1 := by simp [sd_read_block, e]
    rw [h]; exact hout s1 h
  | done u s1 =>
    by_cases hr : (_read_R1 s1).1 = 0
    · cases ew : _wait_for_data_token CMD_17_OK fuel (_read_R1 s1).2 with
      | fuelOut s3 =>
        exfalso; apply hne
        have h : sd_read_block fuel addr s = .fuelOut s3 := by
          rw [read_block_wait fuel addr s s1 e hr, ew]
        rw [h]; exact hout s3 h
      | done b s3 =>
        obtain ⟨rfl, htok⟩ := wait_done _ _ _ _ _ ew
        have hb := (hmid s1 e).2
        rw [ew] at hb
        exact ⟨s1, s3, rfl, hr, ew, htok, hb⟩
    · exfalso; apply hne
      rw [read_block_fail fuel addr s s1 e hr]
      exact (hmid s1 e).1

theorem read_block_log (fuel addr : Nat) (s s1 : State)
    (h : _send_cmd fuel READ_SINGLE_BLOCK (some (sd_read_block_args addr)) s = .done () s1) :
    ∃ m, (sd_read_block fuel addr s).state.log = s1.log ++ fill m := by
  obtain ⟨k, -, lk⟩ := read_R1_log s1
  by_cases hr : (_read_R1 s1).1 = 0
  · obtain ⟨k', -, lw⟩ := wait_log CMD_17_OK fuel (_read_R1 s1).2
    rw [lk, List.append_assoc, fill_append] at lw
    rw [read_block_wait fuel addr s s1 h hr]
    cases ew : _wait_for_data_token CMD_17_OK fuel (_read_R1 s1).2 with
    | fuelOut s3 =>
      rw [ew] at lw
      exact ⟨k + k', lw⟩
    | done b s3 =>
      rw [ew] at lw
      cases b
      · exact ⟨k + k', lw⟩
      · refine ⟨k + k' + SD_BLOCK_SIZE + 2, ?_⟩
        show (_dummy_write 2 (sd_read_block_loop SD_BLOCK_SIZE 0 s3)).log = _
        rw [dummy_write_log, read_block_loop_log, show s3.log = _ from lw]
        simp only [List.append_assoc, fill_append, Nat.add_assoc]
  · rw [read_block_fail fuel addr s s1 h hr]
    exact ⟨k, lk⟩

theorem read_block_args_eq (addr : Nat) (ha : addr < 65536) :
    sd_read_block_args addr = [0, 0, addr >>> 8, addr &&& 0xFF] := by
  have e : sd_read_block_args addr =
      [((addr % 65536) >>> 24) &&& 0xFF, ((addr % 65536) >>> 16) &&& 0xFF,
       ((addr % 65536) >>> 8) &&& 0xFF, ((addr % 65536) >>> 0) &&& 0xFF] := rfl
  rw [e, Nat.mod_eq_of_lt ha]
  have h255 : ∀ x : Nat, x &&& 0xFF = x % 256 := fun x => Nat.and_pow_two_sub_one_eq_mod x 8
  simp only [h255, Nat.shiftRight_eq_div_pow, Nat.shiftRight_zero]
  have h1 : addr / 2 ^ 24 = 0 := Nat.div_eq_of_lt (by omega)
  have h2 : addr / 2 ^ 16 = 0 := Nat.div_eq_of_lt (by omega)
  have h3 : addr / 2 ^ 8 % 256 = addr / 2 ^ 8 := Nat.mod_eq_of_lt (by omega)
  rw [h1, h2, h3]
  simp

/-- C7. For a 16-bit `addr`, once `_rest` has brought the bus to rest, `sd_read_block`
sends the frame `0x51, a0, a1, a2, a3, 0xFF`, where `a_i = (addr >> (24 - 8 i)) & 0xFF` on
the promoted value, so `a0 = a1 = 0`, `a2 = addr >> 8`, `a3 = addr & 0xFF` and the four
bytes are the big-endian encoding of `addr`; every later write of the call is a filler,
so the template's own argument bytes are never sent. -/
theorem sd_read_block_frame (fuel addr : Nat) (s s0 : State) (ha : addr < 65536)
    (h0 : _rest fuel s = .done () s0) :
    sd_read_block_args addr =
      [(addr >>> 24) &&& 0xFF, (addr >>> 16) &&& 0xFF, (addr >>> 8) &&& 0xFF,
       (addr >>> 0) &&& 0xFF] ∧
    sd_read_block_args addr = [0, 0, addr >>> 8, addr &&& 0xFF] ∧
    0 * 2 ^ 24 + 0 * 2 ^ 16 + (addr >>> 8) * 2 ^ 8 + (addr &&& 0xFF) = addr ∧
    ∃ s1 m,
      _send_cmd fuel READ_SINGLE_BLOCK (some (sd_read_block_args addr)) s = .done () s1 ∧
      s1.log = s0.log ++
        [BusEvent.write 0x51, BusEvent.write 0, BusEvent.write 0,
         BusEvent.write (addr >>> 8), BusEvent.write (addr &&& 0xFF), BusEvent.write 0xFF] ∧
      (sd_read_block fuel addr s).state.log = s1.log ++ fill m := by
  have h255 : ∀ x : Nat, x &&& 0xFF = x % 256 := fun x => Nat.and_pow_two_sub_one_eq_mod x 8
  have hargs := read_block_args_eq addr ha
  have hsend : _send_cmd fuel READ_SINGLE_BLOCK (some (sd_read_block_args addr)) s =
      .done () (sentState READ_SINGLE_BLOCK (some (sd_read_block_args addr)) s0) := by
    simp [_send_cmd, h0, sentState]
  obtain ⟨m, hm⟩ := read_block_log fuel addr s _ hsend
  refine ⟨?_, hargs, ?_, _, m, hsend, ?_, hm⟩
  · have e : sd_read_block_args addr =
        [((addr % 65536) >>> 24) &&& 0xFF, ((addr % 65536) >>> 16) &&& 0xFF,
         ((addr % 65536) >>> 8) &&& 0xFF, ((addr % 65536) >>> 0) &&& 0xFF] := rfl
    rw [e, Nat.mod_eq_of_lt ha]
  · rw [h255, Nat.shiftRight_eq_div_pow]
    omega
  · rw [sentState_log, hargs]
    have h3 : addr >>> 8 % 256 = addr >>> 8 := by
      rw [Nat.shiftRight_eq_div_pow]; exact Nat.mod_eq_of_lt (by omega)
    have h4 : (addr &&& 0xFF) % 256 = addr &&& 0xFF := by
      rw [h255]; exact Nat.mod_mod _ _
    simp [frame, h3, h4, START_BITS, STOP_BITS, READ_SINGLE_BLOCK]

theorem stateR_buffer_zero : (sd_read_block 1 0x1234 stateR).state.buffer 0 = 56 := by
  have h := read_block_token 1 0x1234 stateR stateR1 stateR3 rfl (by decide) rfl
  rw [h]
  show (_dummy_write 2 (sd_read_block_loop SD_BLOCK_SIZE 0 stateR3)).buffer 0 = 56
  rw [dummy_write_buffer, read_block_loop_buffer, if_pos (by decide)]
  decide

theorem sd_read_block_buffer_witness :
    ((_read_R1 idleState1).1 = 0xFF ∧
      sd_read_block 0 0 idleState = .done () (_read_R1 idleState1).2 ∧
      (_read_R1 idleState1).2.buffer = idleState.buffer) ∧
    (stateR.buffer 0 = 0xEE ∧ (sd_read_block 1 0x1234 stateR).state.buffer 0 = 56 ∧
      ∃ s1 s3,
        _send_cmd 1 READ_SINGLE_BLOCK (some (sd_read_block_args 0x1234)) stateR
          = .done () s1 ∧
        (_read_R1 s1).1 = 0x00 ∧
        _wait_for_data_token CMD_17_OK 1 (_read_R1 s1).2 = .done true s3 ∧
        sd_read s3 = 0xFE ∧ s3.buffer = stateR.buffer) :=
  ⟨⟨by decide, (sd_read_block_buffer 0 0 idleState).1 idleState1 rfl (by decide)⟩,
   ⟨rfl, stateR_buffer_zero,
    (sd_read_block_buffer 1 0x1234 stateR).2.2.2 (fun h => by
      have h0 := congrFun h 0
      rw [stateR_buffer_zero] at h0
      exact absurd h0 (by decide))⟩⟩

theorem sd_read_block_frame_witness :
    (0x1234 : Nat) < 65536 ∧ _rest 1 stateR = .done () stateR ∧
    (sd_read_block_args 0x1234 =
      [(0x1234 >>> 24) &&& 0xFF, (0x1234 >>> 16) &&& 0xFF, (0x1234 >>> 8) &&& 0xFF,
       (0x1234 >>> 0) &&& 0xFF] ∧
    sd_read_block_args 0x1234 = [0, 0, 0x1234 >>> 8, 0x1234 &&& 0xFF] ∧
    0 * 2 ^ 24 + 0 * 2 ^ 16 + (0x1234 >>> 8) * 2 ^ 8 + (0x1234 &&& 0xFF) = 0x1234 ∧
    ∃ s1 m,
      _send_cmd 1 READ_SINGLE_BLOCK (some (sd_read_block_args 0x1234)) stateR = .done () s1 ∧
      s1.log = stateR.log ++
        [BusEvent.write 0x51, BusEvent.write 0, BusEvent.write 0,
         BusEvent.write (0x1234 >>> 8), BusEvent.write (0x1234 &&& 0xFF),
         BusEvent.write 0xFF] ∧
      (sd_read_block 1 0x1234 stateR).state.log = s1.log ++ fill m) :=
  ⟨by decide, rfl, sd_read_block_frame 1 0x1234 stateR stateR (by decide) rfl⟩

/-! ### Logs only grow, and only by bus traffic -/

theorem busOnly_nil : BusOnly [] := by
  intro e he; cases he

theorem busOnly_append {a b : List BusEvent} (ha : BusOnly a) (hb : BusOnly b) :
    BusOnly (a ++ b) := by
  intro e he v
  rcases List.mem_append.mp he with h | h
  · exact ha e h v
  · exact hb e h v

theorem busOnly_fill (n : Nat) : BusOnly (fill n) := by
  intro e he v
  rw [fill, List.mem_replicate] at he
  rw [he.2]; exact fun h => by cases h

theorem busOnly_frame (cmd : command) (a : List Nat) : BusOnly (frame cmd a) := by
  intro e he v
  simp only [frame, List.mem_cons, List.mem_singleton, List.not_mem_nil, or_false] at he
  rcases he with h | h | h | h | h | h <;> (rw [h]; exact fun h => by cases h)

theorem ext_refl (s : State) : Ext s s := ⟨[], by simp, busOnly_nil⟩

theorem ext_of_eq {s t u : State} (h : Ext s t) (e : u.log = t.log) : Ext s u := by
  obtain ⟨m, hm, hb⟩ := h
  exact ⟨m, e.trans hm, hb⟩

theorem ext_trans {s t u : State} (h1 : Ext s t) (h2 : Ext t u) : Ext s u := by
  obtain ⟨a, ha, ba⟩ := h1
  obtain ⟨b, hb, bb⟩ := h2
  exact ⟨a ++ b, by rw [hb, ha, List.append_assoc], busOnly_append ba bb⟩

theorem ext_dummy_write (n : Nat) (s : State) : Ext s (_dummy_write n s) :=
  ⟨fill n, dummy_write_log n s, busOnly_fill n⟩

theorem ext_rest (fuel : Nat) (s : State) : Ext s (_rest fuel s).state := by
  obtain ⟨k, -, e⟩ := rest_state fuel s
  rw [e]; exact ext_dummy_write k s

theorem ext_sentState (cmd : command) (args : Option (List Nat)) (s : State) :
    Ext s (sentState cmd args s) :=
  ⟨_, sentState_log cmd args s, busOnly_frame _ _⟩

theorem ext_send_cmd (fuel : Nat) (cmd : command) (args : Option (List Nat)) (s : State) :
    Ext s (_send_cmd fuel cmd args s).state := by
  have hr := ext_rest fuel s
  unfold _send_cmd
  split
  · rename_i s1 e
    rw [e] at hr; exact hr
  · rename_i u s1 e
    rw [e] at hr
    exact ext_trans hr (ext_sentState cmd args s1)

theorem ext_read_R1 (s : State) : Ext s (_read_R1 s).2 := by
  obtain ⟨k, -, e⟩ := read_R1_state s
  rw [e]; exact ext_dummy_write k s

theorem ext_read_R3 (s : State) : Ext s (_read_R3 s) :=
  ext_trans (ext_read_R1 s) ⟨fill 4, read_R3_log s, busOnly_fill 4⟩

theorem ext_spi_init2 (s : State) : Ext s (_spi_init2 s) :=
  ⟨[BusEvent.delay 10], rfl, by
    intro e he v
    rw [List.mem_singleton] at he
    rw [he]; exact fun h => by cases h⟩

theorem ext_reset (fuel : Nat) (s : State) : Ext (_dummy_write 3 s) (_reset fuel s).state := by
  have hs := ext_send_cmd fuel GO_IDLE_STATE none (_dummy_write 3 s)
  simp only [_reset]
  split
  · rename_i s2 e
    rw [e] at hs; exact hs
  · rename_i u s2 e
    rw [e] at hs
    exact ext_trans hs (ext_read_R1 s2)

theorem ext_verify (fuel : Nat) (s : State) : Ext s (_verify fuel s).state := by
  have hs := ext_send_cmd fuel SEND_IF_COND none s
  simp only [_verify]
  split
  · rename_i s2 e
    rw [e] at hs; exact hs
  · rename_i u s2 e
    rw [e] at hs
    exact ext_trans hs (ext_read_R3 s2)

theorem ext_round (fuel : Nat) (s : State) : Ext s (acmd41_round fuel s).state := by
  have hs := ext_send_cmd fuel APP_CMD none s
  simp only [acmd41_round]
  split
  · rename_i s1 e
    rw [e] at hs; exact hs
  · rename_i u s1 e
    rw [e] at hs
    have h2 := ext_trans hs (ext_read_R1 s1)
    have h3 := ext_send_cmd fuel SD_SEND_OP_COND none (_read_R1 s1).2
    split
    · rename_i s3 e3
      rw [e3] at h3; exact ext_trans h2 h3
    · rename_i u3 s3 e3
      rw [e3] at h3
      exact ext_trans h2 (ext_trans h3 (ext_read_R1 s3))

theorem ext_loop (fuel k : Nat) (s : State) : Ext s (acmd41_loop fuel k s).state := by
  induction k generalizing s with
  | zero =>
    have hr := ext_round fuel s
    unfold acmd41_loop
    split
    · rename_i s1 e
      rw [e] at hr; exact hr
    · rename_i r s1 e
      rw [e] at hr
      split <;> exact hr
  | succ k ih =>
    have hr := ext_round fuel s
    unfold acmd41_loop
    split
    · rename_i s1 e
      rw [e] at hr; exact hr
    · rename_i r s1 e
      rw [e] at hr
      split
      · exact ext_trans hr (ih s1)
      · exact hr

theorem ext_stage3 (fuel : Nat) (s : State) : Ext s ( _initialize fuel s).state := by
  have hl := ext_loop fuel fuel s
  simp only [ _initialize]
  split
  · rename_i s1 e
    rw [e] at hl; exact hl
  · rename_i r s1 e
    rw [e] at hl
    have hs := ext_send_cmd fuel READ_OCR none s1
    split
    · rename_i s2 e2
      rw [e2] at hs; exact ext_trans hl hs
    · rename_i u s2 e2
      rw [e2] at hs
      exact ext_trans hl (ext_trans hs (ext_read_R3 s2))

theorem ext_sd_init (fuel : Nat) (s : State) (hi : sd_inserted s = true) :
    Ext (_reset fuel (sd_init_setup s)).state (sd_init fuel s).state := by
  unfold sd_init
  simp only [hi, Bool.not_true, Bool.false_eq_true, if_false]
  split
  · rename_i s2 e
    rw [e]; exact ext_refl _
  · rename_i s2 e
    rw [e]; exact ext_refl _
  · rename_i s2 e
    rw [e]
    have hv := ext_verify fuel s2
    split
    · rename_i s3 e3
      rw [e3] at hv; exact hv
    · rename_i s3 e3
      rw [e3] at hv; exact hv
    · rename_i s3 e3
      rw [e3] at hv
      have hn := ext_stage3 fuel s3
      split
      · rename_i s4 e4
        rw [e4] at hn; exact ext_trans hv hn
      · rename_i s4 e4
        rw [e4] at hn; exact ext_trans hv hn
      · rename_i s4 e4
        rw [e4] at hn
        exact ext_trans hv (ext_trans hn (ext_spi_init2 s4))

theorem clearBits_testBit (x i : Nat) (hi : i < 32) :
    (clearBits x (1 <<< i)).testBit i = false := by
  have h : (0xFFFFFFFF ^^^ (1 <<< i)).testBit i = false := by
    rw [Nat.testBit_xor, Nat.one_shiftLeft, Nat.testBit_two_pow_self,
      show (0xFFFFFFFF : Nat) = 2 ^ 32 - 1 from rfl, Nat.testBit_two_pow_sub_one]
    simp [hi]
  rw [clearBits, Nat.testBit_and, h, Bool.and_false]

theorem setBit_testBit (x i : Nat) : (x ||| (1 <<< i)).testBit i = true := by
  rw [Nat.testBit_or, Nat.one_shiftLeft, Nat.testBit_two_pow_self, Bool.or_true]

/-- C10. With the card present, every run of `sd_init` (returned or still inside a loop)
starts its log with: a store to `GPIOB_ODR` with bit 12 set, ten writes of `0xFF`
(80 clock cycles), `delay(10)`, a store to `GPIOB_ODR` with bit 12 clear, three writes
of `0xFF`. Bit 12 of `GPIOB_ODR` is set in every state the ten writes are made in. What
follows holds no further store to `GPIOB_ODR` and, once the bus is at rest, continues with
drain writes and the GO_IDLE_STATE frame. -/
theorem sd_init_power_on_sequence (fuel : Nat) (s : State)
    (hi : s.GPIOA_IDR.testBit 8 = true) :
    74 ≤ RESET_DUMMY_CYCLES * 8 ∧
    (s.GPIOB_ODR ||| (1 <<< 12)).testBit 12 = true ∧
    (clearBits (s.GPIOB_ODR ||| (1 <<< 12)) (1 <<< 12)).testBit 12 = false ∧
    (∀ j, j ≤ RESET_DUMMY_CYCLES →
      (_dummy_write j (setODR (s.GPIOB_ODR ||| (1 <<< 12))
        (_spi_init1 (_gpio_init s)))).GPIOB_ODR.testBit 12 = true) ∧
    ∃ more,
      (sd_init fuel s).state.log =
        s.log ++ [BusEvent.odr (s.GPIOB_ODR ||| (1 <<< 12))] ++ fill 10 ++
          [BusEvent.delay 10,
           BusEvent.odr (clearBits (s.GPIOB_ODR ||| (1 <<< 12)) (1 <<< 12))] ++
          fill 3 ++ more ∧
      BusOnly more ∧
      (∀ s1, _send_cmd fuel GO_IDLE_STATE none (_dummy_write 3 (sd_init_setup s)) = .done () s1 →
        ∃ d rest, more = fill d ++ frame GO_IDLE_STATE GO_IDLE_STATE.args ++ rest) := by
  rw [← sd_inserted_eq] at hi
  refine ⟨by decide, setBit_testBit _ 12, clearBits_testBit _ 12 (by decide), ?_, ?_⟩
  · intro j _
    rw [dummy_write_ODR]
    exact setBit_testBit _ 12
  · obtain ⟨more, hm, hb⟩ := ext_trans (ext_reset fuel (sd_init_setup s)) (ext_sd_init fuel s hi)
    rw [dummy_write_log, sd_init_setup_log] at hm
    refine ⟨more, hm, hb, ?_⟩
    intro s1 h1
    obtain ⟨d, -, ld⟩ := send_cmd_log _ _ _ _ _ h1
    have h2 := reset_eq fuel _ s1 h1
    have he : Ext s1 (sd_init fuel s).state := by
      have := ext_sd_init fuel s hi
      rw [h2] at this
      exact ext_trans (ext_read_R1 s1) this
    obtain ⟨m1, hm1, -⟩ := he
    rw [ld, dummy_write_log, sd_init_setup_log, hm] at hm1
    refine ⟨d, m1, ?_⟩
    simp only [List.append_assoc] at hm1
    have := List.append_cancel_left hm1
    simpa [List.append_assoc] using this

theorem sd_init_power_on_sequence_witness :
    stateA.GPIOA_IDR.testBit 8 = true ∧
    (74 ≤ RESET_DUMMY_CYCLES * 8 ∧
    (stateA.GPIOB_ODR ||| (1 <<< 12)).testBit 12 = true ∧
    (clearBits (stateA.GPIOB_ODR ||| (1 <<< 12)) (1 <<< 12)).testBit 12 = false ∧
    (∀ j, j ≤ RESET_DUMMY_CYCLES →
      (_dummy_write j (setODR (stateA.GPIOB_ODR ||| (1 <<< 12))
        (_spi_init1 (_gpio_init stateA)))).GPIOB_ODR.testBit 12 = true) ∧
    ∃ more,
      (sd_init 1 stateA).state.log =
        stateA.log ++ [BusEvent.odr (stateA.GPIOB_ODR ||| (1 <<< 12))] ++ fill 10 ++
          [BusEvent.delay 10,
           BusEvent.odr (clearBits (stateA.GPIOB_ODR ||| (1 <<< 12)) (1 <<< 12))] ++
          fill 3 ++ more ∧
      BusOnly more ∧
      (∀ s1, _send_cmd 1 GO_IDLE_STATE none (_dummy_write 3 (sd_init_setup stateA))
          = .done () s1 →
        ∃ d rest, more = fill d ++ frame GO_IDLE_STATE GO_IDLE_STATE.args ++ rest)) :=
  ⟨by decide, sd_init_power_on_sequence 1 stateA (by decide)⟩

/-! ### The ACMD41 loop -/

theorem acmd41_after_succ (fuel n : Nat) (s s1 : State) (r : Nat)
    (h : acmd41_round fuel s = .done r s1) :
    acmd41_after fuel (n + 1) s = acmd41_after fuel n s1 := by
  simp [acmd41_after, h, Outcome.state]

theorem loop_exit (fuel k r : Nat) (s s' : State) (h : acmd41_loop fuel k s = .done r s') :
    ∃ n, n ≤ k ∧
      (∀ i, i < n → ∃ si, acmd41_round fuel (acmd41_after fuel i s) = .done 0x01 si) ∧
      acmd41_round fuel (acmd41_after fuel n s) = .done r s' ∧ r ≠ 0x01 := by
  induction k generalizing s with
  | zero =>
    unfold acmd41_loop at h
    split at h
    · cases h
    · rename_i r1 s1 e
      split at h
      · cases h
      · rename_i hne
        cases h
        exact ⟨0, le_refl _, fun i hi => absurd hi (Nat.not_lt_zero i), e,
          by simpa [CARD_IDLE] using hne⟩
  | succ k ih =>
    unfold acmd41_loop at h
    split at h
    · cases h
    · rename_i r1 s1 e
      split at h
      · rename_i heq
        have hr1 : r1 = 0x01 := by simpa [CARD_IDLE] using heq
        obtain ⟨n, hn, hall, hlast, hne⟩ := ih s1 h
        refine ⟨n + 1, by omega, ?_, ?_, hne⟩
        · intro i hi
          cases i with
          | zero => exact ⟨s1, by rw [← hr1]; exact e⟩
          | succ i =>
            rw [acmd41_after_succ fuel i s s1 r1 e]
            exact hall i (by omega)
        · rw [acmd41_after_succ fuel n s s1 r1 e]
          exact hlast
      · rename_i hne
        cases h
        exact ⟨0, Nat.zero_le _, fun i hi => absurd hi (Nat.not_lt_zero i), e,
          by simpa [CARD_IDLE] using hne⟩

theorem loop_of_rounds (fuel k n r : Nat) (s s' : State) (hn : n ≤ k)
    (hall : ∀ i, i < n → ∃ si, acmd41_round fuel (acmd41_after fuel i s) = .done 0x01 si)
    (hlast : acmd41_round fuel (acmd41_after fuel n s) = .done r s') (hne : r ≠ 0x01) :
    acmd41_loop fuel k s = .done r s' := by
  induction n generalizing s k with
  | zero =>
    have e : acmd41_round fuel s = .done r s' := hlast
    have hb : (r == CARD_IDLE) = false := by simpa [CARD_IDLE] using hne
    cases k <;> simp [acmd41_loop, e, hb]
  | succ n ih =>
    obtain ⟨s1, e⟩ := hall 0 (Nat.succ_pos n)
    have e' : acmd41_round fuel s = .done 0x01 s1 := e
    cases k with
    | zero => omega
    | succ k =>
      have := ih k s1 (by omega)
        (fun i hi => by
          have := hall (i + 1) (by omega)
          rwa [acmd41_after_succ fuel i s s1 _ e'] at this)
        (by rwa [acmd41_after_succ fuel n s s1 _ e'] at hlast)
      simp [acmd41_loop, e', CARD_IDLE, this]

theorem round_log (fuel r : Nat) (s s' : State) (h : acmd41_round fuel s = .done r s') :
    ∃ q, s'.log = s.log ++ roundLog q := by
  simp only [acmd41_round] at h
  split at h
  · cases h
  · rename_i u s1 e1
    split at h
    · cases h
    · rename_i u3 s3 e3
      cases h
      obtain ⟨a, -, la⟩ := send_cmd_log _ _ _ _ _ e1
      obtain ⟨b, -, lb⟩ := read_R1_log s1
      obtain ⟨c, -, lc⟩ := send_cmd_log _ _ _ _ _ e3
      obtain ⟨d, -, ld⟩ := read_R1_log s3
      refine ⟨(a, b, c, d), ?_⟩
      rw [ld, lc, lb, la]
      simp [roundLog, List.append_assoc]

theorem rounds_log (fuel n : Nat) (s : State)
    (hall : ∀ i, i < n → ∃ r si, acmd41_round fuel (acmd41_after fuel i s) = .done r si) :
    ∃ qs : List (Nat × Nat × Nat × Nat), qs.length = n ∧
      (acmd41_after fuel n s).log = s.log ++ roundsLog qs := by
  induction n generalizing s with
  | zero => exact ⟨[], rfl, by simp [acmd41_after, roundsLog]⟩
  | succ n ih =>
    obtain ⟨r, s1, e⟩ := hall 0 (Nat.succ_pos n)
    have e' : acmd41_round fuel s = .done r s1 := e
    obtain ⟨q, hq⟩ := round_log fuel r s s1 e'
    obtain ⟨qs, hl, hqs⟩ := ih s1 (fun i hi => by
      have := hall (i + 1) (by omega)
      rwa [acmd41_after_succ fuel i s s1 r e'] at this)
    refine ⟨q :: qs, by simp [hl], ?_⟩
    rw [acmd41_after_succ fuel n s s1 r e', hqs, hq]
    simp [roundsLog, List.append_assoc]

/-- C8, the code at the failing input. With card C, which answers `0x05` (idle flag and
illegal-command flag) to the first SD_SEND_OP_COND, the ACMD41 loop is entered in the
state `_verify` left and exits after a single pass on the R1 byte `0x05`: that byte is not
`0x00` and its bit 0, the idle flag, is set, yet the loop does not repeat, and `sd_init`
goes on to READ_OCR and returns true. -/
theorem acmd41_loop_exits_idle :
    sd_init 1 stateC = .done true (sd_init 1 stateC).state ∧
    _reset 1 (sd_init_setup stateC) = .done true stateC2 ∧
    _verify 1 stateC2 = .done true stateC3 ∧
    acmd41_round 1 stateC3 = .done 0x05 (acmd41_round 1 stateC3).state ∧
    acmd41_loop 1 1 stateC3 = .done 0x05 (acmd41_round 1 stateC3).state ∧
    Nat.testBit 0x05 0 = true ∧ (0x05 : Nat) ≠ 0x00 ∧ (0x05 : Nat) ≠ CARD_IDLE :=
  ⟨rfl, rfl, rfl, rfl, rfl, by decide, by decide, by decide⟩

/-- The ACMD41 loop as the code runs it: whenever `sd_init` returns true, the loop was
entered in the state `_verify` left, made some `n` passes whose R1 after SD_SEND_OP_COND
was `0x01`, and exited on the first pass whose R1 differed from `0x01`; the R1 byte of
the READ_OCR response read next is `0x00`. -/
theorem acmd41_exit_value (fuel : Nat) (s s' : State) (h : sd_init fuel s = .done true s') :
    ∃ sr sv n r s3 s4,
      _reset fuel (sd_init_setup s) = .done true sr ∧ _verify fuel sr = .done true sv ∧
      acmd41_loop fuel fuel sv = .done r s3 ∧ r ≠ 0x01 ∧ n ≤ fuel ∧
      (∀ i, i < n → ∃ si, acmd41_round fuel (acmd41_after fuel i sv) = .done 0x01 si) ∧
      acmd41_round fuel (acmd41_after fuel n sv) = .done r s3 ∧
      _send_cmd fuel READ_OCR none s3 = .done () s4 ∧
      (_read_R3 s4).resp 0 = 0x00 ∧ ((_read_R3 s4).resp 0).testBit 0 = false := by
  obtain ⟨-, sr, sv, s4', h2, h3, h4, -⟩ := sd_init_true fuel s s' h
  obtain ⟨r, s3, s4, e3, e4, b4, -⟩ := stage3_done _ _ _ _ h4
  obtain ⟨n, hn, hall, hlast, hne⟩ := loop_exit fuel fuel r sv s3 e3
  have h0 : (_read_R3 s4).resp 0 = 0 := by
    have := b4.symm
    simp only [Bool.and_eq_true, beq_iff_eq, CMD_OK] at this
    exact this.1
  exact ⟨sr, sv, n, r, s3, s4, h2, h3, e3, hne, hn, hall, hlast, e4, h0, by rw [h0]; rfl⟩

/-- C9. Let the card be present and answer `0x01` to GO_IDLE_STATE, an R3 ending in
`0xAA` to SEND_IF_COND, `0x01` to each of the first `n` SD_SEND_OP_COND commands and
`0x00` to the next one, and `00 40 00 00 00` to READ_OCR. Then, with fuel for `n`
repetitions, `sd_init` returns true, and from the end of the SEND_IF_COND response on its
log is exactly `n + 1` passes (each an APP_CMD frame then an SD_SEND_OP_COND frame, amid
filler writes), then one READ_OCR frame amid filler writes, then the `delay` of
`_spi_init2`. -/
theorem sd_init_acmd41_rounds (fuel n : Nat) (s s1 s2 s3 s4 : State) (hn : n ≤ fuel)
    (hi : s.GPIOA_IDR.testBit 8 = true)
    (h1 : _send_cmd fuel GO_IDLE_STATE none (_dummy_write 3 (sd_init_setup s)) = .done () s1)
    (r1 : (_read_R1 s1).1 = 0x01)
    (h2 : _send_cmd fuel SEND_IF_COND none (_read_R1 s1).2 = .done () s2)
    (r2 : (_read_R3 s2).resp 4 = 0xAA)
    (hall : ∀ i, i < n →
      ∃ si, acmd41_round fuel (acmd41_after fuel i (_read_R3 s2)) = .done 0x01 si)
    (hlast : acmd41_round fuel (acmd41_after fuel n (_read_R3 s2)) = .done 0x00 s3)
    (h4 : _send_cmd fuel READ_OCR none s3 = .done () s4)
    (r4 : (_read_R3 s4).resp 0 = 0x00 ∧ (_read_R3 s4).resp 1 = 0x40 ∧
      (_read_R3 s4).resp 2 = 0 ∧ (_read_R3 s4).resp 3 = 0 ∧ (_read_R3 s4).resp 4 = 0) :
    sd_init fuel s = .done true (_spi_init2 (_read_R3 s4)) ∧
    ∃ (qs : List (Nat × Nat × Nat × Nat)) (d k : Nat), qs.length = n + 1 ∧
      (_spi_init2 (_read_R3 s4)).log =
        (_read_R3 s2).log ++ roundsLog qs ++ fill d ++ frame READ_OCR READ_OCR.args ++
          fill k ++ [BusEvent.delay 10] := by
  rw [← sd_inserted_eq] at hi
  have e2 := reset_eq fuel _ s1 h1
  have e3 := verify_eq fuel _ s2 h2
  have el := loop_of_rounds fuel fuel n 0 (_read_R3 s2) s3 hn hall hlast (by decide)
  have e4 := stage3_eq fuel 0 _ s3 s4 el h4
  simp only [r1, r2, r4.1, r4.2.1, CARD_IDLE, CMD_OK, beq_self_eq_true] at e2 e3 e4
  have hb : (true && ((64 : Nat) &&& 1 <<< 6 != 0)) = true := by decide
  rw [hb] at e4
  have hfin := sd_init_stage3 fuel s _ _ _ true hi e2 e3 e4
  simp only [if_true] at hfin
  refine ⟨hfin, ?_⟩
  obtain ⟨qs, hl, hqs⟩ := rounds_log fuel (n + 1) (_read_R3 s2) (fun i hi' => by
    rcases Nat.lt_succ_iff_lt_or_eq.mp hi' with h | h
    · obtain ⟨si, e⟩ := hall i h
      exact ⟨_, si, e⟩
    · subst h
      exact ⟨_, s3, hlast⟩)
  have hs3 : acmd41_after fuel (n + 1) (_read_R3 s2) = s3 := by
    have : ∀ (m : Nat) (t : State),
        acmd41_after fuel (m + 1) t = (acmd41_round fuel (acmd41_after fuel m t)).state := by
      intro m
      induction m with
      | zero => intro t; rfl
      | succ m ih => intro t; exact ih _
    rw [this, hlast]; rfl
  rw [hs3] at hqs
  obtain ⟨d, -, ld⟩ := send_cmd_log _ _ _ _ _ h4
  obtain ⟨k, -, lk⟩ := read_R1_log s4
  refine ⟨qs, d, k + 4, hl, ?_⟩
  show (_read_R3 s4).log ++ [BusEvent.delay 10] = _
  rw [read_R3_log, lk, ld, hqs]
  simp [List.append_assoc, fill_append]

theorem sd_init_acmd41_rounds_witness :
    (1 ≤ 1 ∧ stateA.GPIOA_IDR.testBit 8 = true ∧
      _send_cmd 1 GO_IDLE_STATE none (_dummy_write 3 (sd_init_setup stateA))
        = .done () stateA1 ∧
      (_read_R1 stateA1).1 = 0x01 ∧
      _send_cmd 1 SEND_IF_COND none (_read_R1 stateA1).2 = .done () stateA1v ∧
      (_read_R3 stateA1v).resp 4 = 0xAA ∧
      (∃ si, acmd41_round 1 (acmd41_after 1 0 (_read_R3 stateA1v)) = .done 0x01 si) ∧
      acmd41_round 1 (acmd41_after 1 1 (_read_R3 stateA1v)) = .done 0x00 stateA4 ∧
      _send_cmd 1 READ_OCR none stateA4 = .done () stateA5 ∧
      (_read_R3 stateA5).resp 0 = 0x00 ∧ (_read_R3 stateA5).resp 1 = 0x40) ∧
    (sd_init 1 stateA = .done true (_spi_init2 (_read_R3 stateA5)) ∧
      ∃ (qs : List (Nat × Nat × Nat × Nat)) (d k : Nat), qs.length = 1 + 1 ∧
        (_spi_init2 (_read_R3 stateA5)).log =
          (_read_R3 stateA1v).log ++ roundsLog qs ++ fill d ++ frame READ_OCR READ_OCR.args ++
            fill k ++ [BusEvent.delay 10]) :=
  ⟨⟨le_refl 1, by decide, rfl, by decide, rfl, by decide, ⟨_, rfl⟩, rfl, rfl,
      by decide, by decide⟩,
    sd_init_acmd41_rounds 1 1 stateA stateA1 stateA1v stateA4 stateA5 (le_refl 1) (by decide)
      rfl (by decide) rfl (by decide)
      (fun i hi => by
        have : i = 0 := by omega
        subst this
        exact ⟨_, rfl⟩)
      rfl rfl ⟨by decide, by decide, by decide, by decide, by decide⟩⟩

/-! ### Relations that bus traffic preserves -/

theorem sameRegs_inv : BusInv SameRegs where
  refl := fun _ => ⟨rfl, rfl, rfl, rfl, rfl, rfl⟩
  trans := fun _ _ _ h1 h2 =>
    ⟨h2.1.trans h1.1, h2.2.1.trans h1.2.1, h2.2.2.1.trans h1.2.2.1,
     h2.2.2.2.1.trans h1.2.2.2.1, h2.2.2.2.2.1.trans h1.2.2.2.2.1,
     h2.2.2.2.2.2.trans h1.2.2.2.2.2⟩
  write := fun _ _ => ⟨rfl, rfl, rfl, rfl, rfl, rfl⟩
  resp := fun _ _ => ⟨rfl, rfl, rfl, rfl, rfl, rfl⟩

theorem inv_dummy_write {R : State → State → Prop} (hR : BusInv R) (n : Nat) (s : State) : R s (_dummy_write n s) := by
  induction n generalizing s with
  | zero => exact hR.refl s
  | succ n ih => exact hR.trans _ _ _ (hR.write 0xFF s) (ih (sd_write 0xFF s))

theorem inv_rest {R : State → State → Prop} (hR : BusInv R) (fuel : Nat) (s : State) : R s (_rest fuel s).state := by
  obtain ⟨k, -, e⟩ := rest_state fuel s
  rw [e]; exact inv_dummy_write hR k s

theorem inv_sentState {R : State → State → Prop} (hR : BusInv R) (cmd : command) (args : Option (List Nat)) (s : State) :
    R s (sentState cmd args s) := by
  have h4 : ∀ (n i : Nat) (t : State), R t (_send_cmd_args cmd args n i t) := by
    intro n
    induction n with
    | zero => intro i t; exact hR.refl t
    | succ n ih =>
      intro i t
      cases args with
      | none => exact hR.trans _ _ _ (hR.write _ t) (ih _ _)
      | some a => exact hR.trans _ _ _ (hR.write _ t) (ih _ _)
  exact hR.trans _ _ _ (hR.write _ s) (hR.trans _ _ _ (h4 _ _ _) (hR.write _ _))

theorem inv_send_cmd {R : State → State → Prop} (hR : BusInv R) (fuel : Nat) (cmd : command) (args : Option (List Nat)) (s : State) :
    R s (_send_cmd fuel cmd args s).state := by
  have hr := inv_rest hR fuel s
  unfold _send_cmd
  split
  · rename_i s1 e
    rw [e] at hr; exact hr
  · rename_i u s1 e
    rw [e] at hr
    exact hR.trans _ _ _ hr (inv_sentState hR cmd args s1)

theorem inv_read_R1 {R : State → State → Prop} (hR : BusInv R) (s : State) : R s (_read_R1 s).2 := by
  obtain ⟨k, -, e⟩ := read_R1_state s
  rw [e]; exact inv_dummy_write hR k s

theorem inv_read_R3 {R : State → State → Prop} (hR : BusInv R) (s : State) : R s (_read_R3 s) := by
  have hl : ∀ (n i : Nat) (t : State), R t (_read_R3_loop n i t) := by
    intro n
    induction n with
    | zero => intro i t; exact hR.refl t
    | succ n ih =>
      intro i t
      exact hR.trans _ _ _ (hR.trans _ _ _ (inv_dummy_write hR 1 t) (hR.resp _ _)) (ih _ _)
  exact hR.trans _ _ _ (hR.trans _ _ _ (inv_read_R1 hR s) (hR.resp _ _)) (hl _ _ _)

theorem inv_reset {R : State → State → Prop} (hR : BusInv R) (fuel : Nat) (s : State) : R s (_reset fuel s).state := by
  have hs := hR.trans _ _ _ (inv_dummy_write hR 3 s)
    (inv_send_cmd hR fuel GO_IDLE_STATE none (_dummy_write 3 s))
  simp only [_reset]
  split
  · rename_i s2 e
    rw [e] at hs; exact hs
  · rename_i u s2 e
    rw [e] at hs
    exact hR.trans _ _ _ hs (inv_read_R1 hR s2)

theorem inv_verify {R : State → State → Prop} (hR : BusInv R) (fuel : Nat) (s : State) : R s (_verify fuel s).state := by
  have hs := inv_send_cmd hR fuel SEND_IF_COND none s
  simp only [_verify]
  split
  · rename_i s2 e
    rw [e] at hs; exact hs
  · rename_i u s2 e
    rw [e] at hs
    exact hR.trans _ _ _ hs (inv_read_R3 hR s2)

theorem inv_round {R : State → State → Prop} (hR : BusInv R) (fuel : Nat) (s : State) : R s (acmd41_round fuel s).state := by
  have hs := inv_send_cmd hR fuel APP_CMD none s
  simp only [acmd41_round]
  split
  · rename_i s1 e
    rw [e] at hs; exact hs
  · rename_i u s1 e
    rw [e] at hs
    have h2 := hR.trans _ _ _ hs (inv_read_R1 hR s1)
    have h3 := inv_send_cmd hR fuel SD_SEND_OP_COND none (_read_R1 s1).2
    split
    · rename_i s3 e3
      rw [e3] at h3; exact hR.trans _ _ _ h2 h3
    · rename_i u3 s3 e3
      rw [e3] at h3
      exact hR.trans _ _ _ h2 (hR.trans _ _ _ h3 (inv_read_R1 hR s3))

theorem inv_loop {R : State → State → Prop} (hR : BusInv R) (fuel k : Nat) (s : State) : R s (acmd41_loop fuel k s).state := by
  induction k generalizing s with
  | zero =>
    have hr := inv_round hR fuel s
    unfold acmd41_loop
    split
    · rename_i s1 e
      rw [e] at hr; exact hr
    · rename_i r s1 e
      rw [e] at hr
      split <;> exact hr
  | succ k ih =>
    have hr := inv_round hR fuel s
    unfold acmd41_loop
    split
    · rename_i s1 e
      rw [e] at hr; exact hr
    · rename_i r s1 e
      rw [e] at hr
      split
      · exact hR.trans _ _ _ hr (ih s1)
      · exact hr

theorem inv_stage3 {R : State → State → Prop} (hR : BusInv R) (fuel : Nat) (s : State) : R s ( _initialize fuel s).state := by
  have hl := inv_loop hR fuel fuel s
  simp only [ _initialize]
  split
  · rename_i s1 e
    rw [e] at hl; exact hl
  · rename_i r s1 e
    rw [e] at hl
    have hs := inv_send_cmd hR fuel READ_OCR none s1
    split
    · rename_i s2 e2
      rw [e2] at hs; exact hR.trans _ _ _ hl hs
    · rename_i u s2 e2
      rw [e2] at hs
      exact hR.trans _ _ _ hl (hR.trans _ _ _ hs (inv_read_R3 hR s2))

/-- With the card present, a run of `sd_init` either returns true in `_spi_init2 s4` for
a state `s4` related to the state after the setup, or ends otherwise in a state related to
the state after the setup. -/
theorem inv_sd_init {R : State → State → Prop} (hR : BusInv R) (fuel : Nat) (s : State) (hi : sd_inserted s = true) :
    (∃ s4, sd_init fuel s = .done true (_spi_init2 s4) ∧ R (sd_init_setup s) s4) ∨
    ((∀ s', sd_init fuel s ≠ .done true s') ∧ R (sd_init_setup s) (sd_init fuel s).state) := by
  have h2 := inv_reset hR fuel (sd_init_setup s)
  unfold sd_init
  simp only [hi, Bool.not_true, Bool.false_eq_true, if_false]
  split
  · rename_i s2 e
    rw [e] at h2
    exact Or.inr ⟨(fun s' h => by cases h), h2⟩
  · rename_i s2 e
    rw [e] at h2
    exact Or.inr ⟨(fun s' h => by cases h), h2⟩
  · rename_i s2 e
    rw [e] at h2
    have hv := hR.trans _ _ _ h2 (inv_verify hR fuel s2)
    split
    · rename_i s3 e3
      rw [e3] at hv
      exact Or.inr ⟨(fun s' h => by cases h), hv⟩
    · rename_i s3 e3
      rw [e3] at hv
      exact Or.inr ⟨(fun s' h => by cases h), hv⟩
    · rename_i s3 e3
      rw [e3] at hv
      have hn := hR.trans _ _ _ hv (inv_stage3 hR fuel s3)
      split
      · rename_i s4 e4
        rw [e4] at hn
        exact Or.inr ⟨(fun s' h => by cases h), hn⟩
      · rename_i s4 e4
        rw [e4] at hn
        exact Or.inr ⟨(fun s' h => by cases h), hn⟩
      · rename_i s4 e4
        rw [e4] at hn
        exact Or.inl ⟨s4, rfl, hn⟩


/-! ### Registers after the setup and after `_spi_init2` -/

theorem setup_CR1 (s : State) :
    (sd_init_setup s).SPI2_CR1 = (_spi_init1 (_gpio_init s)).SPI2_CR1 := by
  simp [sd_init_setup, _power_on, setODR, delay, (dummy_write_regs _ _).2.2.2.2.1]

theorem setup_CR2 (s : State) :
    (sd_init_setup s).SPI2_CR2 = (_spi_init1 (_gpio_init s)).SPI2_CR2 := by
  simp [sd_init_setup, _power_on, setODR, delay, (dummy_write_regs _ _).2.2.2.2.2]

theorem setup_CRH (s : State) :
    (sd_init_setup s).GPIOB_CRH = (_spi_init1 (_gpio_init s)).GPIOB_CRH := by
  simp [sd_init_setup, _power_on, setODR, delay, (dummy_write_regs _ _).2.1]

theorem spi_init1_CR1 (s : State) :
    (_spi_init1 (_gpio_init s)).SPI2_CR1 =
      s.SPI2_CR1 ||| (3 <<< 4) ||| (1 <<< 9) ||| (1 <<< 2) ||| (1 <<< 6) := rfl

theorem spi_init1_CR2 (s : State) :
    (_spi_init1 (_gpio_init s)).SPI2_CR2 = s.SPI2_CR2 ||| (1 <<< 2) := rfl

theorem spi_init1_CRH (s : State) :
    (_spi_init1 (_gpio_init s)).GPIOB_CRH = (_gpio_init s).GPIOB_CRH := rfl

theorem spi_init2_CR1 (s : State) :
    (_spi_init2 s).SPI2_CR1 =
      clearBits (clearBits (clearBits s.SPI2_CR1 (1 <<< 6)) (3 <<< 4) ||| (1 <<< 5)) (1 <<< 9)
        ||| (1 <<< 6) := rfl

theorem spi_init2_CRH (s : State) : (_spi_init2 s).GPIOB_CRH = s.GPIOB_CRH ||| (1 <<< 19) := rfl

theorem spi_init2_CR2 (s : State) : (_spi_init2 s).SPI2_CR2 = s.SPI2_CR2 := rfl

/-- C11. From reset-state SPI registers with the card present: if `sd_init` returns
true, then on return `SPI2_CR1` has baud-rate bits 5:3 = 100, bit 9 clear, bit 6 set, and
`GPIOB_CRH` has bit 19 set; if it returns false, `SPI2_CR1` still has baud-rate bits
5:3 = 110 and bit 9 set, and `GPIOB_CRH` is as `_gpio_init` left it. -/
theorem sd_init_bus_profile (fuel : Nat) (s s' : State) (b : Bool)
    (hcr1 : s.SPI2_CR1 = 0) (hcr2 : s.SPI2_CR2 = 0) (hi : s.GPIOA_IDR.testBit 8 = true)
    (h : sd_init fuel s = .done b s') :
    (b = true →
      (s'.SPI2_CR1 >>> 3) &&& 7 = 0b100 ∧ s'.SPI2_CR1.testBit 9 = false ∧
      s'.SPI2_CR1.testBit 6 = true ∧ s'.GPIOB_CRH.testBit 19 = true ∧
      s'.SPI2_CR1 = 0x64 ∧ s'.SPI2_CR2 = 0x04) ∧
    (b = false →
      (s'.SPI2_CR1 >>> 3) &&& 7 = 0b110 ∧ s'.SPI2_CR1.testBit 9 = true ∧
      s'.SPI2_CR1 = 0x274 ∧ s'.SPI2_CR2 = 0x04 ∧
      s'.GPIOB_CRH = (_gpio_init s).GPIOB_CRH) := by
  rw [← sd_inserted_eq] at hi
  have c1 : (sd_init_setup s).SPI2_CR1 = 0x274 := by
    rw [setup_CR1, spi_init1_CR1, hcr1]; rfl
  have c2 : (sd_init_setup s).SPI2_CR2 = 0x04 := by
    rw [setup_CR2, spi_init1_CR2, hcr2]; rfl
  have c3 : (sd_init_setup s).GPIOB_CRH = (_gpio_init s).GPIOB_CRH := by
    rw [setup_CRH, spi_init1_CRH]
  rcases inv_sd_init sameRegs_inv fuel s hi with ⟨s4, e, hr⟩ | ⟨hne, hr⟩
  · rw [e] at h
    cases h
    have d1 : (_spi_init2 s4).SPI2_CR1 = 0x64 := by
      rw [spi_init2_CR1, hr.2.2.2.2.1, c1]; rfl
    refine ⟨fun _ => ?_, fun hb => by cases hb⟩
    refine ⟨by rw [d1]; rfl, by rw [d1]; rfl, by rw [d1]; rfl, ?_, d1, ?_⟩
    · rw [spi_init2_CRH]; exact setBit_testBit _ 19
    · rw [spi_init2_CR2, hr.2.2.2.2.2, c2]
  · rw [h] at hr
    have d1 : s'.SPI2_CR1 = 0x274 := hr.2.2.2.2.1.trans c1
    refine ⟨fun hb => ?_, fun _ => ?_⟩
    · subst hb
      exact absurd h (hne s')
    · exact ⟨by rw [d1]; rfl, by rw [d1]; rfl, d1, hr.2.2.2.2.2.trans c2, hr.2.1.trans c3⟩

theorem sd_init_bus_profile_witness :
    (stateA.SPI2_CR1 = 0 ∧ stateA.SPI2_CR2 = 0 ∧ stateA.GPIOA_IDR.testBit 8 = true ∧
      sd_init 1 stateA = .done true (sd_init 1 stateA).state ∧
      (sd_init 1 stateA).state.SPI2_CR1 = 0x64) ∧
    (stateB.SPI2_CR1 = 0 ∧ stateB.SPI2_CR2 = 0 ∧ stateB.GPIOA_IDR.testBit 8 = true ∧
      sd_init 1 stateB = .done false (sd_init 1 stateB).state ∧
      (sd_init 1 stateB).state.SPI2_CR1 = 0x274) :=
  ⟨⟨rfl, rfl, by decide, rfl,
    ((sd_init_bus_profile 1 stateA _ true rfl rfl (by decide) rfl).1 rfl).2.2.2.2.1⟩,
   ⟨rfl, rfl, by decide, rfl,
    ((sd_init_bus_profile 1 stateB _ false rfl rfl (by decide) rfl).2 rfl).2.2.1⟩⟩

/-! ### The polls, byte by byte -/

theorem sd_read_dummy_write (s : State) (j : Nat) :
    sd_read (_dummy_write j s) = lineByte s j := by
  cases j with
  | zero => rfl
  | succ j => simp [sd_read, dummy_write_DR, lineByte]

theorem lineByte_succ (s : State) (j : Nat) :
    lineByte (_dummy_write 1 s) j = lineByte s (j + 1) := by
  rw [← sd_read_dummy_write, ← sd_read_dummy_write]
  rfl

theorem bit7_eq (x : Nat) : (x &&& (1 <<< 7) != 0) = x.testBit 7 := bit_set_eq x 7

theorem read_R1_loop_spec (n : Nat) (s : State) :
    ∃ k, k ≤ n ∧ (∀ j, j < k → (lineByte s j).testBit 7 = true) ∧
      (k < n → (lineByte s k).testBit 7 = false) ∧
      _read_R1_loop n (sd_read s) s = (lineByte s k, _dummy_write k s) := by
  induction n generalizing s with
  | zero =>
    exact ⟨0, le_refl _, fun j hj => absurd hj (Nat.not_lt_zero j),
      fun h => absurd h (Nat.lt_irrefl 0), rfl⟩
  | succ n ih =>
    unfold _read_R1_loop
    by_cases hb : (sd_read s).testBit 7 = true
    · obtain ⟨k, hk, hall, hstop, e⟩ := ih (_dummy_write 1 s)
      refine ⟨k + 1, by omega, ?_, ?_, ?_⟩
      · intro j hj
        cases j with
        | zero => exact hb
        | succ j => rw [← lineByte_succ]; exact hall j (by omega)
      · intro h
        rw [← lineByte_succ]; exact hstop (by omega)
      · rw [bit7_eq, hb]
        simp only [if_true]
        rw [e, lineByte_succ]
        rfl
    · have hb' : (sd_read s).testBit 7 = false := by simpa using hb
      refine ⟨0, Nat.zero_le _, fun j hj => absurd hj (Nat.not_lt_zero j), fun _ => hb', ?_⟩
      rw [bit7_eq, hb']
      rfl

/-- C13. `_read_R1` stops at the first byte with bit 7 clear, after at most 8 filler
writes: there is `k ≤ 8` such that the bytes `b0 .. b(k-1)` all have bit 7 set, `bk` has
bit 7 clear unless `k = 8`, exactly `k` bytes `0xFF` are written, and `bk` is returned.
A returned byte with bit 7 set means `b0 .. b8` all had bit 7 set. -/
theorem read_R1_poll (s : State) :
    ∃ k, k ≤ 8 ∧ (∀ j, j < k → (lineByte s j).testBit 7 = true) ∧
      (k < 8 → (lineByte s k).testBit 7 = false) ∧
      (_read_R1 s).1 = lineByte s k ∧
      (_read_R1 s).2 = _dummy_write k s ∧
      (_read_R1 s).2.log = s.log ++ fill k ∧
      (_read_R1 s).2.pos = s.pos + k ∧
      (((_read_R1 s).1).testBit 7 = true → k = 8 ∧ ∀ j, j ≤ 8 → (lineByte s j).testBit 7 = true) := by
  obtain ⟨k, hk, hall, hstop, e⟩ := read_R1_loop_spec READ_BYTE_DELAY s
  have e' : _read_R1 s = (lineByte s k, _dummy_write k s) := e
  refine ⟨k, hk, hall, hstop, by rw [e'], by rw [e'], by rw [e', dummy_write_log],
    by rw [e', dummy_write_pos], ?_⟩
  intro hset
  rw [e'] at hset
  have hk8 : k = 8 := by
    by_contra hne
    have hlt : k < READ_BYTE_DELAY := by
      have : k ≤ 8 := hk
      show k < 8
      omega
    rw [hstop hlt] at hset
    cases hset
  refine ⟨hk8, fun j hj => ?_⟩
  rcases Nat.lt_or_ge j k with h | h
  · exact hall j h
  · have : j = k := by omega
    rw [this]; exact hset

theorem read_R3_loop_pos (n i : Nat) (s : State) :
    (_read_R3_loop n i s).pos = s.pos + n := by
  induction n generalizing s i with
  | zero => simp [_read_R3_loop]
  | succ n ih => simp [_read_R3_loop, ih, dummy_write_pos]; omega

theorem read_R3_loop_resp (n i j : Nat) (s : State) :
    (_read_R3_loop n i s).resp j =
      if i ≤ j ∧ j < i + n then s.card (s.pos + (j - i)) % 256 else s.resp j := by
  induction n generalizing s i with
  | zero =>
    have : ¬ (i ≤ j ∧ j < i + 0) := by omega
    rw [if_neg this]; rfl
  | succ n ih =>
    simp only [_read_R3_loop]
    rw [ih]
    simp only [dummy_write_card, dummy_write_pos, dummy_write_resp]
    by_cases hj : j = i
    · subst hj
      have h1 : ¬ (j + 1 ≤ j ∧ j < j + 1 + n) := by omega
      have h2 : j ≤ j ∧ j < j + (n + 1) := by omega
      simp [h1, h2, sd_read, dummy_write_one, sd_write]
    · by_cases hr : i + 1 ≤ j ∧ j < i + 1 + n
      · have h2 : i ≤ j ∧ j < i + (n + 1) := by omega
        have e : s.pos + 1 + (j - (i + 1)) = s.pos + (j - i) := by omega
        simp [hr, h2, e]
      · have h2 : ¬ (i ≤ j ∧ j < i + (n + 1)) := by omega
        simp [hr, h2, Function.update, hj]

theorem read_R1_loop_resp_indep (n x : Nat) (s : State) (r0 : Nat → Nat) :
    _read_R1_loop n x { s with resp := r0 } =
      ((_read_R1_loop n x s).1, { (_read_R1_loop n x s).2 with resp := r0 }) := by
  induction n generalizing s x with
  | zero => rfl
  | succ n ih =>
    unfold _read_R1_loop
    split
    · exact ih _ (_dummy_write 1 s)
    · rfl

theorem read_R1_resp_indep (s : State) (r0 : Nat → Nat) :
    _read_R1 { s with resp := r0 } = ((_read_R1 s).1, { (_read_R1 s).2 with resp := r0 }) :=
  read_R1_loop_resp_indep READ_BYTE_DELAY (sd_read s) s r0

theorem read_R1_card (s : State) : (_read_R1 s).2.card = s.card := by
  obtain ⟨k, -, e⟩ := read_R1_state s
  rw [e, dummy_write_card]

theorem read_R3_resp (s : State) (i : Nat) :
    (_read_R3 s).resp i =
      if i = 0 then (_read_R1 s).1
      else if i ≤ 4 then s.card ((_read_R1 s).2.pos + (i - 1)) % 256
      else s.resp i := by
  have hR1 : (_read_R1 s).2.resp = s.resp := by
    obtain ⟨k, -, e⟩ := read_R1_state s
    rw [e, dummy_write_resp]
  simp only [_read_R3, NUM_R3_RESP_BYTES]
  rw [read_R3_loop_resp]
  by_cases h0 : i = 0
  · subst h0
    simp
  · by_cases h4 : i ≤ 4
    · have : 1 ≤ i ∧ i < 1 + (5 - 1) := by omega
      simp [this, h0, h4, read_R1_card]
    · have : ¬ (1 ≤ i ∧ i < 1 + (5 - 1)) := by omega
      simp [this, h0, h4, Function.update, hR1]

/-- C14. `_read_R3` fills five bytes: `resp[0]` is the value `_read_R1` returns and
`resp[1..4]` are, in order, the card bytes received for exactly four further filler
writes; no other index is written, and none of the five bytes depends on what the static
buffer held before. -/
theorem read_R3_bytes (s : State) :
    (_read_R3 s).resp 0 = (_read_R1 s).1 ∧
    (∀ i, 1 ≤ i → i ≤ 4 →
      (_read_R3 s).resp i = s.card ((_read_R1 s).2.pos + (i - 1)) % 256) ∧
    (∀ i, 5 ≤ i → (_read_R3 s).resp i = s.resp i) ∧
    (_read_R3 s).log = (_read_R1 s).2.log ++ fill 4 ∧
    (_read_R3 s).pos = (_read_R1 s).2.pos + 4 ∧
    (∀ (r0 : Nat → Nat) (i : Nat), i < NUM_R3_RESP_BYTES →
      (_read_R3 { s with resp := r0 }).resp i = (_read_R3 s).resp i) := by
  refine ⟨?_, ?_, ?_, read_R3_log s, ?_, ?_⟩
  · rw [read_R3_resp]; rfl
  · intro i h1 h4
    rw [read_R3_resp, if_neg (by omega), if_pos h4]
  · intro i h5
    rw [read_R3_resp, if_neg (by omega), if_neg (by omega)]
  · simp only [_read_R3, NUM_R3_RESP_BYTES]
    rw [read_R3_loop_pos]
  · intro r0 i hi
    have hi' : i < 5 := hi
    rw [read_R3_resp, read_R3_resp, read_R1_resp_indep]
    by_cases h0 : i = 0
    · simp [h0]
    · have h4 : i ≤ 4 := by omega
      simp [h0, h4]

theorem rest_spec (fuel n : Nat) (s : State) (hn : lineByte s n = 0xFF)
    (hlt : ∀ j, j < n → lineByte s j ≠ 0xFF) :
    (n ≤ fuel → _rest fuel s = .done () (_dummy_write n s)) ∧
    (fuel < n → _rest fuel s = .fuelOut (_dummy_write fuel s)) := by
  induction fuel generalizing s n with
  | zero =>
    cases n with
    | zero =>
      have h0 : sd_read s = 0xFF := hn
      exact ⟨fun _ => by simp [_rest, h0, _dummy_write], fun h => absurd h (Nat.lt_irrefl 0)⟩
    | succ n =>
      have h0 : sd_read s ≠ 0xFF := hlt 0 (Nat.succ_pos n)
      exact ⟨fun h => absurd h (by omega), fun _ => by simp [_rest, h0, _dummy_write]⟩
  | succ fuel ih =>
    cases n with
    | zero =>
      have h0 : sd_read s = 0xFF := hn
      exact ⟨fun _ => by simp [_rest, h0, _dummy_write], fun h => absurd h (by omega)⟩
    | succ n =>
      have h0 : sd_read s ≠ 0xFF := hlt 0 (Nat.succ_pos n)
      have := ih n (_dummy_write 1 s) (by rw [lineByte_succ]; exact hn)
        (fun j hj => by rw [lineByte_succ]; exact hlt (j + 1) (by omega))
      constructor
      · intro h
        simp only [_rest, bne_iff_ne, ne_eq, h0, not_false_eq_true, if_true]
        rw [this.1 (by omega)]; rfl
      · intro h
        simp only [_rest, bne_iff_ne, ne_eq, h0, not_false_eq_true, if_true]
        rw [this.2 (by omega)]; rfl

/-- C15. Let `n` be the least index with `bn = 0xFF` among the bytes read from the line
(`b0` the data register on entry). For every command and optional override, `_send_cmd`
with fuel for `n` drain passes returns after exactly `n` filler writes followed by the six
frame bytes; the frame starts in a state whose last byte read is `0xFF`; with an override
the four argument bytes are the override's, the index and CRC bytes the template's. With
less fuel the run is still draining. -/
theorem send_cmd_drain (fuel n : Nat) (cmd : command) (args : Option (List Nat)) (s : State)
    (hn : lineByte s n = 0xFF) (hlt : ∀ j, j < n → lineByte s j ≠ 0xFF) :
    (n ≤ fuel → ∃ s', _send_cmd fuel cmd args s = .done () s' ∧
      s'.log = s.log ++ fill n ++ frame cmd (args.getD cmd.args) ∧
      s'.pos = s.pos + n + 6 ∧
      sd_read (_dummy_write n s) = 0xFF) ∧
    (fuel < n → _send_cmd fuel cmd args s = .fuelOut (_dummy_write fuel s)) ∧
    (∀ a, args = some a → frame cmd (args.getD cmd.args) =
      [BusEvent.write ((0x40 ||| cmd.cmd_bits) % 256),
       BusEvent.write (a.getD 0 0 % 256), BusEvent.write (a.getD 1 0 % 256),
       BusEvent.write (a.getD 2 0 % 256), BusEvent.write (a.getD 3 0 % 256),
       BusEvent.write (((cmd.crc <<< 1) ||| 1) % 256)]) ∧
    (args = none → frame cmd (args.getD cmd.args) =
      [BusEvent.write ((0x40 ||| cmd.cmd_bits) % 256),
       BusEvent.write (cmd.args.getD 0 0 % 256), BusEvent.write (cmd.args.getD 1 0 % 256),
       BusEvent.write (cmd.args.getD 2 0 % 256), BusEvent.write (cmd.args.getD 3 0 % 256),
       BusEvent.write (((cmd.crc <<< 1) ||| 1) % 256)]) := by
  have hr := rest_spec fuel n s hn hlt
  refine ⟨fun h => ?_, fun h => ?_, fun a e => by subst e; rfl, fun e => by subst e; rfl⟩
  · refine ⟨sentState cmd args (_dummy_write n s), ?_, ?_, ?_, ?_⟩
    · simp [_send_cmd, hr.1 h, sentState]
    · rw [sentState_log, dummy_write_log]
    · rw [sentState_pos, dummy_write_pos]
    · rw [sd_read_dummy_write]; exact hn
  · simp [_send_cmd, hr.2 h]

theorem send_cmd_drain_witness :
    (lineByte busyState 3 = 0xFF ∧ (∀ j, j < 3 → lineByte busyState j ≠ 0xFF)) ∧
    (∃ s', _send_cmd 3 READ_SINGLE_BLOCK (some [1, 2, 3, 4]) busyState = .done () s' ∧
      s'.log = busyState.log ++ fill 3 ++
        frame READ_SINGLE_BLOCK ((some [1, 2, 3, 4]).getD READ_SINGLE_BLOCK.args) ∧
      s'.pos = busyState.pos + 3 + 6 ∧
      sd_read (_dummy_write 3 busyState) = 0xFF) ∧
    _send_cmd 2 READ_SINGLE_BLOCK (some [1, 2, 3, 4]) busyState
      = .fuelOut (_dummy_write 2 busyState) :=
  have hlt : ∀ j, j < 3 → lineByte busyState j ≠ 0xFF := by
    intro j hj
    have : j = 0 ∨ j = 1 ∨ j = 2 := by omega
    rcases this with h | h | h <;> subst h <;> decide
  ⟨⟨by decide, hlt⟩,
   (send_cmd_drain 3 3 READ_SINGLE_BLOCK (some [1, 2, 3, 4]) busyState (by decide) hlt).1
     (le_refl 3),
   (send_cmd_drain 2 3 READ_SINGLE_BLOCK (some [1, 2, 3, 4]) busyState (by decide) hlt).2.1
     (by decide)⟩

theorem wait_never (token fuel : Nat) (s : State) (hno : ∀ j, lineByte s j ≠ token) :
    _wait_for_data_token token fuel s = .fuelOut (_dummy_write fuel s) := by
  induction fuel generalizing s with
  | zero =>
    have h0 : sd_read s ≠ token := hno 0
    simp [_wait_for_data_token, h0, _dummy_write]
  | succ fuel ih =>
    have h0 : sd_read s ≠ token := hno 0
    simp only [_wait_for_data_token, bne_iff_ne, ne_eq, h0, not_false_eq_true, if_true]
    rw [ih (_dummy_write 1 s) (fun j => by rw [lineByte_succ]; exact hno (j + 1))]
    rfl

/-- C16. `_wait_for_data_token` never returns false. When neither the data register on
entry nor any later card byte equals the token, its run is out of fuel for every fuel,
having made one filler write per unit of fuel. Hence `sd_read_block`, after an R1 of
`0x00` on a card that never sends `0xFE`, is out of fuel for every fuel too, with the
buffer unchanged. -/
theorem wait_for_data_token_unbounded (token fuel : Nat) (s : State) :
    (∀ b s', _wait_for_data_token token fuel s = .done b s' → b = true) ∧
    ((∀ j, lineByte s j ≠ token) →
      _wait_for_data_token token fuel s = .fuelOut (_dummy_write fuel s) ∧
      (_dummy_write fuel s).log = s.log ++ fill fuel) ∧
    (∀ addr s1,
      _send_cmd fuel READ_SINGLE_BLOCK (some (sd_read_block_args addr)) s = .done () s1 →
      (_read_R1 s1).1 = 0x00 →
      (∀ j, lineByte (_read_R1 s1).2 j ≠ 0xFE) →
      sd_read_block fuel addr s = .fuelOut (_dummy_write fuel (_read_R1 s1).2) ∧
      (_dummy_write fuel (_read_R1 s1).2).buffer = s.buffer) := by
  refine ⟨fun b s' h => (wait_done token fuel s s' b h).1,
    fun hno => ⟨wait_never token fuel s hno, dummy_write_log fuel s⟩, ?_⟩
  intro addr s1 h1 hr hno
  have hw := wait_never CMD_17_OK fuel (_read_R1 s1).2 hno
  refine ⟨by rw [read_block_wait fuel addr s s1 h1 hr, hw], ?_⟩
  have e1 := send_cmd_buffer fuel READ_SINGLE_BLOCK (some (sd_read_block_args addr)) s
  rw [h1] at e1
  rw [dummy_write_buffer, read_R1_buffer]
  exact e1

theorem cardN_no_token (x : Nat) : cardN x % 256 ≠ 0xFE := by
  unfold cardN
  split <;> decide

theorem wait_for_data_token_unbounded_witness :
    _send_cmd 40 READ_SINGLE_BLOCK (some (sd_read_block_args 0)) stateN = .done () stateN1 ∧
    (_read_R1 stateN1).1 = 0x00 ∧
    (∀ j, lineByte (_read_R1 stateN1).2 j ≠ 0xFE) ∧
    sd_read_block 40 0 stateN = .fuelOut (_dummy_write 40 (_read_R1 stateN1).2) ∧
    (_dummy_write 40 (_read_R1 stateN1).2).buffer = stateN.buffer :=
  have hno : ∀ j, lineByte (_read_R1 stateN1).2 j ≠ 0xFE := by
    intro j
    unfold lineByte
    split
    · decide
    · exact cardN_no_token _
  ⟨rfl, by decide, hno,
    (wait_for_data_token_unbounded 0xFE 40 stateN).2.2 0 stateN1 rfl (by decide) hno⟩

/-- C17, as stated, fails: the template APP_CMD has CRC field `0xFF`, which is not a
7-bit value, and `(crc << 1) | 1 = 0x1FF` does not fit in one byte. -/
theorem template_crc_counterexample :
    APP_CMD ∈ templates ∧ ¬ APP_CMD.crc ≤ 127 ∧ ¬ (APP_CMD.crc <<< 1) ||| 1 < 256 ∧
    (APP_CMD.crc <<< 1) ||| 1 = 0x1FF := by
  decide

/-- C17, amended. Every one of the six templates has a command index in 0..63, so
`0x40 | index` is a byte with top two bits `01`, and a CRC field that fits in 8 bits. For
GO_IDLE_STATE and SEND_IF_COND the CRC field is a 7-bit value and `(crc << 1) | 1` fits in
one byte; for the other four it is `0xFF`, and `(crc << 1) | 1 = 0x1FF` is cut to `0xFF`
when written. In every case the last frame byte has low bit `1`. -/
theorem template_fields (cmd : command) (hc : cmd ∈ templates) :
    cmd.cmd_bits ≤ 63 ∧ (0x40 ||| cmd.cmd_bits) < 256 ∧ (0x40 ||| cmd.cmd_bits) >>> 6 = 1 ∧
    cmd.crc ≤ 255 ∧
    ((cmd = GO_IDLE_STATE ∨ cmd = SEND_IF_COND) →
      cmd.crc ≤ 127 ∧ (cmd.crc <<< 1) ||| 1 < 256) ∧
    ((cmd ≠ GO_IDLE_STATE ∧ cmd ≠ SEND_IF_COND) →
      cmd.crc = 0xFF ∧ (cmd.crc <<< 1) ||| 1 = 0x1FF ∧ ((cmd.crc <<< 1) ||| 1) % 256 = 0xFF) ∧
    (frame cmd cmd.args).getLast? = some (BusEvent.write (((cmd.crc <<< 1) ||| 1) % 256)) ∧
    (((cmd.crc <<< 1) ||| 1) % 256) % 2 = 1 := by
  simp only [templates, List.mem_cons, List.mem_singleton, List.not_mem_nil, or_false] at hc
  rcases hc with rfl | rfl | rfl | rfl | rfl | rfl <;> decide

theorem template_fields_witness :
    READ_OCR ∈ templates ∧
    (READ_OCR.cmd_bits ≤ 63 ∧ (0x40 ||| READ_OCR.cmd_bits) < 256 ∧
    (0x40 ||| READ_OCR.cmd_bits) >>> 6 = 1 ∧ READ_OCR.crc ≤ 255 ∧
    ((READ_OCR = GO_IDLE_STATE ∨ READ_OCR = SEND_IF_COND) →
      READ_OCR.crc ≤ 127 ∧ (READ_OCR.crc <<< 1) ||| 1 < 256) ∧
    ((READ_OCR ≠ GO_IDLE_STATE ∧ READ_OCR ≠ SEND_IF_COND) →
      READ_OCR.crc = 0xFF ∧ (READ_OCR.crc <<< 1) ||| 1 = 0x1FF ∧
      ((READ_OCR.crc <<< 1) ||| 1) % 256 = 0xFF) ∧
    (frame READ_OCR READ_OCR.args).getLast?
      = some (BusEvent.write (((READ_OCR.crc <<< 1) ||| 1) % 256)) ∧
    (((READ_OCR.crc <<< 1) ||| 1) % 256) % 2 = 1) :=
  ⟨by decide, template_fields READ_OCR (by decide)⟩

/-- C18, the code at the failing input. The first call of `sd_init`, from the reset
state, runs its handshake with `GPIOB_CRH = 0xA4A24444` (bits 19:18 = 00, bits 17:16 = 10)
and `SPI2_CR1 = 0x274` (bit 9 set, bits 5:3 = 110), and returns true. In the second call
`_gpio_init` and `_spi_init1` leave `SPI2_CR1 = 0x274` again but `GPIOB_CRH = 0xA4AA4444`:
bit 19, set by `_spi_init2`, is still set, so bits 19:18 are 10, not 00. -/
theorem gpio_init_second_call :
    stateA.GPIOB_CRH = 0x44444444 ∧ stateA.SPI2_CR1 = 0 ∧
    (_spi_init1 (_gpio_init stateA)).GPIOB_CRH = 0xA4A24444 ∧
    ((_spi_init1 (_gpio_init stateA)).GPIOB_CRH >>> 18) &&& 3 = 0b00 ∧
    ((_spi_init1 (_gpio_init stateA)).GPIOB_CRH >>> 16) &&& 3 = 0b10 ∧
    (_spi_init1 (_gpio_init stateA)).SPI2_CR1 = 0x274 ∧
    sd_init 1 stateA = .done true stateASecond ∧
    (_spi_init1 (_gpio_init stateASecond)).GPIOB_CRH = 0xA4AA4444 ∧
    ((_spi_init1 (_gpio_init stateASecond)).GPIOB_CRH >>> 18) &&& 3 = 0b10 ∧
    ((_spi_init1 (_gpio_init stateASecond)).GPIOB_CRH >>> 16) &&& 3 = 0b10 ∧
    (_spi_init1 (_gpio_init stateASecond)).SPI2_CR1 = 0x274 ∧
    ((_spi_init1 (_gpio_init stateASecond)).SPI2_CR1 >>> 3) &&& 7 = 0b110 ∧
    (_spi_init1 (_gpio_init stateASecond)).SPI2_CR1.testBit 9 = true :=
  ⟨rfl, rfl, by decide, by decide, by decide, by decide, rfl, by decide, by decide,
    by decide, by decide, by decide, by decide⟩

theorem gpio_init_keeps_bit19 (s : State) (h : s.GPIOB_CRH.testBit 19 = true) :
    (_spi_init1 (_gpio_init s)).GPIOB_CRH.testBit 19 = true := by
  have hm : (0xFFFFFFFF ^^^ ((1 <<< 18) ||| (1 <<< 22) ||| (1 <<< 30)) : Nat).testBit 19
      = true := by decide
  show ((clearBits s.GPIOB_CRH ((1 <<< 18) ||| (1 <<< 22) ||| (1 <<< 30)) |||
    ((1 <<< 17) ||| (1 <<< 21) ||| (1 <<< 29))) ||| ((1 <<< 23) ||| (1 <<< 31))).testBit 19
      = true
  rw [Nat.testBit_or, Nat.testBit_or, clearBits, Nat.testBit_and, h, hm]
  rfl

theorem second_call_keeps_bit19 (fuel : Nat) (s s1 : State)
    (h : sd_init fuel s = .done true s1) :
    (_spi_init1 (_gpio_init s1)).GPIOB_CRH.testBit 19 = true := by
  obtain ⟨-, s2, s3, s4, -, -, -, rfl⟩ := sd_init_true fuel s s1 h
  exact gpio_init_keeps_bit19 _ (by rw [spi_init2_CRH]; exact setBit_testBit _ 19)

/-! ### Two runs fed the same card bytes -/

theorem written_append (a b : List BusEvent) : written (a ++ b) = written a ++ written b := by
  induction a with
  | nil => rfl
  | cons e a ih => cases e <;> simp [written, ih]

theorem written_fill (n : Nat) : written (fill n) = List.replicate n 0xFF := by
  induction n with
  | zero => rfl
  | succ n ih => simp [fill, List.replicate_succ, written] at ih ⊢; exact ih

theorem sim_write (b : Nat) {s0 t0 s t : State} (h : Sim0 s0 t0 s t) :
    Sim s0 t0 (sd_write b s) (sd_write b t) := by
  obtain ⟨hc, W, hs, ht⟩ := h
  refine ⟨⟨fun i => ?_, W ++ [b % 256], ?_, ?_⟩, ?_⟩
  · have := hc (1 + i)
    simpa [sd_write, Nat.add_assoc] using this
  · simp [sd_write, written_append, hs, written]
  · simp [sd_write, written_append, ht, written]
  · have := hc 0
    simp only [Nat.add_zero] at this
    simp [sd_read, sd_write, this]

/-- Steps that leave the card position, the data register and the written bytes alone
keep two runs related. -/
theorem sim_quiet {s0 t0 s t s' t' : State} (h : Sim s0 t0 s t)
    (hs : s'.card = s.card ∧ s'.pos = s.pos ∧ s'.SPI2_DR = s.SPI2_DR ∧
      written s'.log = written s.log)
    (ht : t'.card = t.card ∧ t'.pos = t.pos ∧ t'.SPI2_DR = t.SPI2_DR ∧
      written t'.log = written t.log) :
    Sim s0 t0 s' t' := by
  obtain ⟨⟨hc, W, h1, h2⟩, hd⟩ := h
  refine ⟨⟨fun i => ?_, W, ?_, ?_⟩, ?_⟩
  · rw [hs.1, hs.2.1, ht.1, ht.2.1]; exact hc i
  · rw [hs.2.2.2, h1]
  · rw [ht.2.2.2, h2]
  · simp only [sd_read] at hd ⊢
    rw [hs.2.2.1, ht.2.2.1]; exact hd

theorem sim0_quiet {s0 t0 s t s' t' : State} (h : Sim0 s0 t0 s t)
    (hs : s'.card = s.card ∧ s'.pos = s.pos ∧ written s'.log = written s.log)
    (ht : t'.card = t.card ∧ t'.pos = t.pos ∧ written t'.log = written t.log) :
    Sim0 s0 t0 s' t' := by
  obtain ⟨hc, W, h1, h2⟩ := h
  refine ⟨fun i => ?_, W, ?_, ?_⟩
  · rw [hs.1, hs.2.1, ht.1, ht.2.1]; exact hc i
  · rw [hs.2.2, h1]
  · rw [ht.2.2, h2]

theorem sim_dummy_succ (n : Nat) {s0 t0 s t : State} (h : Sim0 s0 t0 s t) :
    Sim s0 t0 (_dummy_write (n + 1) s) (_dummy_write (n + 1) t) := by
  induction n generalizing s t with
  | zero => exact sim_write 0xFF h
  | succ n ih => exact ih (sim_write 0xFF h).1

theorem sim_dummy (n : Nat) {s0 t0 s t : State} (h : Sim s0 t0 s t) :
    Sim s0 t0 (_dummy_write n s) (_dummy_write n t) := by
  cases n with
  | zero => exact h
  | succ n => exact sim_dummy_succ n h.1

theorem sim_rest (fuel : Nat) {s0 t0 s t : State} (h : Sim s0 t0 s t) :
    OSim (Sim s0 t0) (_rest fuel s) (_rest fuel t) := by
  induction fuel generalizing s t with
  | zero =>
    unfold _rest
    rw [← h.2]
    split
    · exact ⟨rfl, h⟩
    · exact ⟨rfl, h⟩
  | succ fuel ih =>
    unfold _rest
    rw [← h.2]
    split
    · exact ih (sim_dummy 1 h)
    · exact ⟨rfl, h⟩

theorem sim_sentState (cmd : command) (args : Option (List Nat)) {s0 t0 s t : State}
    (h : Sim0 s0 t0 s t) :
    Sim s0 t0 (sentState cmd args s) (sentState cmd args t) := by
  cases args with
  | none =>
    exact sim_write _ (sim_write _ (sim_write _ (sim_write _ (sim_write _
      (sim_write _ h).1).1).1).1).1
  | some a =>
    exact sim_write _ (sim_write _ (sim_write _ (sim_write _ (sim_write _
      (sim_write _ h).1).1).1).1).1

theorem send_cmd_eq (fuel : Nat) (cmd : command) (args : Option (List Nat)) (s : State) :
    _send_cmd fuel cmd args s =
      match _rest fuel s with
      | .fuelOut s1 => .fuelOut s1
      | .done _ s1 => .done () (sentState cmd args s1) := rfl

theorem sim_send_cmd (fuel : Nat) (cmd : command) (args : Option (List Nat))
    {s0 t0 s t : State} (h : Sim s0 t0 s t) :
    OSim (Sim s0 t0) (_send_cmd fuel cmd args s) (_send_cmd fuel cmd args t) := by
  have hr := sim_rest fuel h
  rw [send_cmd_eq, send_cmd_eq]
  cases e1 : _rest fuel s <;> cases e2 : _rest fuel t <;> rw [e1, e2] at hr
  · exact ⟨rfl, sim_sentState cmd args hr.2.1⟩
  · exact absurd hr.1 (by simp [Outcome.result])
  · exact absurd hr.1 (by simp [Outcome.result])
  · exact ⟨rfl, hr.2⟩

theorem sim_read_R1_loop (n x : Nat) {s0 t0 s t : State} (h : Sim s0 t0 s t) :
    (_read_R1_loop n x s).1 = (_read_R1_loop n x t).1 ∧
    Sim s0 t0 (_read_R1_loop n x s).2 (_read_R1_loop n x t).2 := by
  induction n generalizing s t x with
  | zero => exact ⟨rfl, h⟩
  | succ n ih =>
    unfold _read_R1_loop
    split
    · have h1 := sim_dummy 1 h
      simp only []
      rw [h1.2]
      exact ih _ h1
    · exact ⟨rfl, h⟩

theorem sim_read_R1 {s0 t0 s t : State} (h : Sim s0 t0 s t) :
    (_read_R1 s).1 = (_read_R1 t).1 ∧ Sim s0 t0 (_read_R1 s).2 (_read_R1 t).2 := by
  unfold _read_R1
  rw [h.2]
  exact sim_read_R1_loop _ _ h

theorem sim_read_R3_loop (n i : Nat) {s0 t0 s t : State} (h : Sim s0 t0 s t) :
    Sim s0 t0 (_read_R3_loop n i s) (_read_R3_loop n i t) := by
  induction n generalizing s t i with
  | zero => exact h
  | succ n ih =>
    simp only [_read_R3_loop]
    exact ih _ (sim_quiet (sim_dummy 1 h) ⟨rfl, rfl, rfl, rfl⟩ ⟨rfl, rfl, rfl, rfl⟩)

theorem sim_read_R3 {s0 t0 s t : State} (h : Sim s0 t0 s t) :
    Sim s0 t0 (_read_R3 s) (_read_R3 t) ∧
    ∀ i, i < 5 → (_read_R3 s).resp i = (_read_R3 t).resp i := by
  have h1 := sim_read_R1 h
  constructor
  · simp only [_read_R3]
    exact sim_read_R3_loop _ _ (sim_quiet h1.2 ⟨rfl, rfl, rfl, rfl⟩ ⟨rfl, rfl, rfl, rfl⟩)
  · intro i hi
    rw [read_R3_resp, read_R3_resp, h1.1]
    by_cases h0 : i = 0
    · simp [h0]
    · have h4 : i ≤ 4 := by omega
      simp only [h0, h4, if_false, if_true]
      have := h1.2.1.1 (i - 1)
      rw [read_R1_card, read_R1_card] at this
      rw [this]

theorem osim_cases {α : Type} {R : State → State → Prop} {o1 o2 : Outcome α}
    (h : OSim R o1 o2) :
    (∃ a s t, o1 = .done a s ∧ o2 = .done a t ∧ R s t) ∨
    (∃ s t, o1 = .fuelOut s ∧ o2 = .fuelOut t ∧ R s t) := by
  cases o1 with
  | done a s =>
    cases o2 with
    | done b t =>
      have e : a = b := by
        have := h.1
        simpa [Outcome.result] using this
      subst e
      exact Or.inl ⟨a, s, t, rfl, rfl, h.2⟩
    | fuelOut t => exact absurd h.1 (by simp [Outcome.result])
  | fuelOut s =>
    cases o2 with
    | done b t => exact absurd h.1 (by simp [Outcome.result])
    | fuelOut t => exact Or.inr ⟨s, t, rfl, rfl, h.2⟩

theorem sim_reset (fuel : Nat) {s0 t0 s t : State} (h : Sim0 s0 t0 s t) :
    OSim (Sim s0 t0) (_reset fuel s) (_reset fuel t) := by
  have hs := sim_send_cmd fuel GO_IDLE_STATE none (sim_dummy_succ 2 h)
  rcases osim_cases hs with ⟨a, s1, t1, e1, e2, hr⟩ | ⟨s1, t1, e1, e2, hr⟩
  · have h1 := sim_read_R1 hr
    simp only [_reset, e1, e2]
    exact ⟨by simp [Outcome.result, h1.1], h1.2⟩
  · simp only [_reset, e1, e2]
    exact ⟨rfl, hr⟩

theorem sim_verify (fuel : Nat) {s0 t0 s t : State} (h : Sim s0 t0 s t) :
    OSim (Sim s0 t0) (_verify fuel s) (_verify fuel t) := by
  have hs := sim_send_cmd fuel SEND_IF_COND none h
  rcases osim_cases hs with ⟨a, s1, t1, e1, e2, hr⟩ | ⟨s1, t1, e1, e2, hr⟩
  · have h3 := sim_read_R3 hr
    simp only [_verify, e1, e2, NUM_R3_RESP_BYTES]
    exact ⟨by simp [Outcome.result, h3.2 4 (by decide)], h3.1⟩
  · simp only [_verify, e1, e2]
    exact ⟨rfl, hr⟩

theorem sim_round (fuel : Nat) {s0 t0 s t : State} (h : Sim s0 t0 s t) :
    OSim (Sim s0 t0) (acmd41_round fuel s) (acmd41_round fuel t) := by
  have hs := sim_send_cmd fuel APP_CMD none h
  rcases osim_cases hs with ⟨a, s1, t1, e1, e2, hr⟩ | ⟨s1, t1, e1, e2, hr⟩
  · have h1 := sim_read_R1 hr
    have hs2 := sim_send_cmd fuel SD_SEND_OP_COND none h1.2
    rcases osim_cases hs2 with ⟨a', s3, t3, e3, e4, hr3⟩ | ⟨s3, t3, e3, e4, hr3⟩
    · have h3 := sim_read_R1 hr3
      simp only [acmd41_round, e1, e2, e3, e4]
      exact ⟨by simp [Outcome.result, h3.1], h3.2⟩
    · simp only [acmd41_round, e1, e2, e3, e4]
      exact ⟨rfl, hr3⟩
  · simp only [acmd41_round, e1, e2]
    exact ⟨rfl, hr⟩

theorem sim_loop (fuel k : Nat) {s0 t0 s t : State} (h : Sim s0 t0 s t) :
    OSim (Sim s0 t0) (acmd41_loop fuel k s) (acmd41_loop fuel k t) := by
  induction k generalizing s t with
  | zero =>
    rcases osim_cases (sim_round fuel h) with ⟨a, s1, t1, e1, e2, hr⟩ | ⟨s1, t1, e1, e2, hr⟩
    · simp only [acmd41_loop, e1, e2]
      split
      · exact ⟨rfl, hr⟩
      · exact ⟨rfl, hr⟩
    · simp only [acmd41_loop, e1, e2]
      exact ⟨rfl, hr⟩
  | succ k ih =>
    rcases osim_cases (sim_round fuel h) with ⟨a, s1, t1, e1, e2, hr⟩ | ⟨s1, t1, e1, e2, hr⟩
    · simp only [acmd41_loop, e1, e2]
      split
      · exact ih hr
      · exact ⟨rfl, hr⟩
    · simp only [acmd41_loop, e1, e2]
      exact ⟨rfl, hr⟩

theorem sim_stage3 (fuel : Nat) {s0 t0 s t : State} (h : Sim s0 t0 s t) :
    OSim (Sim s0 t0) ( _initialize fuel s) ( _initialize fuel t) := by
  rcases osim_cases (sim_loop fuel fuel h) with ⟨a, s1, t1, e1, e2, hr⟩ | ⟨s1, t1, e1, e2, hr⟩
  · rcases osim_cases (sim_send_cmd fuel READ_OCR none hr) with
      ⟨a', s2, t2, e3, e4, hr2⟩ | ⟨s2, t2, e3, e4, hr2⟩
    · have h3 := sim_read_R3 hr2
      simp only [ _initialize, e1, e2, e3, e4]
      exact ⟨by simp [Outcome.result, h3.2 0 (by decide), h3.2 1 (by decide)], h3.1⟩
    · simp only [ _initialize, e1, e2, e3, e4]
      exact ⟨rfl, hr2⟩
  · simp only [ _initialize, e1, e2]
    exact ⟨rfl, hr⟩

theorem setup_quiet (s : State) :
    sd_init_setup s = setODR (clearBits (_power_on (_spi_init1 (_gpio_init s))).GPIOB_ODR (1 <<< 12))
      (delay 10 (_dummy_write 10 (setODR ((_spi_init1 (_gpio_init s)).GPIOB_ODR ||| (1 <<< 12))
        (_spi_init1 (_gpio_init s))))) := rfl

theorem sim_setup {s0 t0 s t : State} (h : Sim0 s0 t0 s t) :
    Sim s0 t0 (sd_init_setup s) (sd_init_setup t) := by
  have q : ∀ u : State, ∀ v,
      (setODR v (_spi_init1 (_gpio_init u))).card = u.card ∧
      (setODR v (_spi_init1 (_gpio_init u))).pos = u.pos ∧
      written (setODR v (_spi_init1 (_gpio_init u))).log = written u.log := by
    intro u v
    refine ⟨rfl, rfl, ?_⟩
    show written (u.log ++ [BusEvent.odr v]) = written u.log
    rw [written_append]; simp [written]
  have h1 := sim_dummy_succ 9 (sim0_quiet h
    (q s ((_spi_init1 (_gpio_init s)).GPIOB_ODR ||| (1 <<< 12)))
    (q t ((_spi_init1 (_gpio_init t)).GPIOB_ODR ||| (1 <<< 12))))
  rw [setup_quiet, setup_quiet]
  refine sim_quiet h1 ⟨rfl, rfl, rfl, ?_⟩ ⟨rfl, rfl, rfl, ?_⟩
  · show written (((_dummy_write 10 _).log ++ [BusEvent.delay 10]) ++ [BusEvent.odr _]) = _
    rw [written_append, written_append]; simp [written]
  · show written (((_dummy_write 10 _).log ++ [BusEvent.delay 10]) ++ [BusEvent.odr _]) = _
    rw [written_append, written_append]; simp [written]

theorem sim_spi_init2 {s0 t0 s t : State} (h : Sim s0 t0 s t) :
    Sim s0 t0 (_spi_init2 s) (_spi_init2 t) := by
  refine sim_quiet h ⟨rfl, rfl, rfl, ?_⟩ ⟨rfl, rfl, rfl, ?_⟩
  · show written (s.log ++ [BusEvent.delay 10]) = _
    rw [written_append]; simp [written]
  · show written (t.log ++ [BusEvent.delay 10]) = _
    rw [written_append]; simp [written]

theorem sd_init_present (fuel : Nat) (s : State) (hi : sd_inserted s = true) :
    sd_init fuel s =
      match _reset fuel (sd_init_setup s) with
      | .fuelOut s2 => .fuelOut s2
      | .done false s2 => .done false s2
      | .done true s2 =>
        match _verify fuel s2 with
        | .fuelOut s3 => .fuelOut s3
        | .done false s3 => .done false s3
        | .done true s3 =>
          match _initialize fuel s3 with
          | .fuelOut s4 => .fuelOut s4
          | .done false s4 => .done false s4
          | .done true s4 => .done true (_spi_init2 s4) := by
  simp [sd_init, hi]

theorem sim_sd_init (fuel : Nat) {s0 t0 s t : State} (hp : sd_inserted s = sd_inserted t)
    (h : Sim0 s0 t0 s t) :
    OSim (Sim0 s0 t0) (sd_init fuel s) (sd_init fuel t) := by
  cases hi : sd_inserted s with
  | false =>
    rw [sd_init_absent fuel s hi, sd_init_absent fuel t (hp ▸ hi)]
    exact ⟨rfl, h⟩
  | true =>
    rw [sd_init_present fuel s hi, sd_init_present fuel t (hp ▸ hi)]
    rcases osim_cases (sim_reset fuel (sim_setup h).1) with
      ⟨a, s2, t2, e1, e2, hr⟩ | ⟨s2, t2, e1, e2, hr⟩
    · rw [e1, e2]
      cases a with
      | false => exact ⟨rfl, hr.1⟩
      | true =>
        simp only []
        rcases osim_cases (sim_verify fuel hr) with
          ⟨a, s3, t3, e3, e4, hr3⟩ | ⟨s3, t3, e3, e4, hr3⟩
        · rw [e3, e4]
          cases a with
          | false => exact ⟨rfl, hr3.1⟩
          | true =>
            simp only []
            rcases osim_cases (sim_stage3 fuel hr3) with
              ⟨a, s4, t4, e5, e6, hr4⟩ | ⟨s4, t4, e5, e6, hr4⟩
            · rw [e5, e6]
              cases a with
              | false => exact ⟨rfl, hr4.1⟩
              | true => exact ⟨rfl, (sim_spi_init2 hr4).1⟩
            · rw [e5, e6]
              exact ⟨rfl, hr4.1⟩
        · rw [e3, e4]
          exact ⟨rfl, hr3.1⟩
    · rw [e1, e2]
      exact ⟨rfl, hr.1⟩

theorem setup_card_IDR (s : State) :
    (sd_init_setup s).card = s.card ∧ (sd_init_setup s).GPIOA_IDR = s.GPIOA_IDR := by
  rw [setup_quiet]
  exact ⟨dummy_write_card _ _, (dummy_write_regs _ _).1⟩

theorem card_IDR_inv : BusInv (fun s t => t.card = s.card ∧ t.GPIOA_IDR = s.GPIOA_IDR) where
  refl := fun _ => ⟨rfl, rfl⟩
  trans := fun _ _ _ h1 h2 => ⟨h2.1.trans h1.1, h2.2.trans h1.2⟩
  write := fun _ _ => ⟨rfl, rfl⟩
  resp := fun _ _ => ⟨rfl, rfl⟩

theorem sd_init_card_IDR (fuel : Nat) (s s1 : State) (h : sd_init fuel s = .done true s1) :
    s1.card = s.card ∧ s1.GPIOA_IDR = s.GPIOA_IDR := by
  have hi := (sd_init_true fuel s s1 h).1
  rcases inv_sd_init card_IDR_inv fuel s hi with ⟨s4, e, hr⟩ | ⟨hne, -⟩
  · rw [e] at h
    cases h
    exact ⟨hr.1.trans (setup_card_IDR s).1, hr.2.trans (setup_card_IDR s).2⟩
  · exact absurd h (hne s1)

theorem sd_init_written_start (fuel : Nat) (s : State) (hi : sd_inserted s = true) :
    ∃ W, written (sd_init fuel s).state.log =
      written s.log ++ (List.replicate 13 0xFF ++ W) := by
  obtain ⟨more, hm, -⟩ := ext_trans (ext_reset fuel (sd_init_setup s)) (ext_sd_init fuel s hi)
  rw [dummy_write_log, sd_init_setup_log] at hm
  refine ⟨written more, ?_⟩
  rw [hm]
  simp only [written_append, written_fill, written, List.append_nil, List.append_assoc]
  simp

theorem sd_init_same_input (fuel : Nat) (s t : State)
    (hp : t.GPIOA_IDR = s.GPIOA_IDR) (hc : t.card = s.card) (hpos : t.pos = s.pos)
    (hlog : t.log = s.log) :
    (sd_init fuel t).result = (sd_init fuel s).result ∧
    written (sd_init fuel t).state.log = written (sd_init fuel s).state.log := by
  have h0 : Sim0 t s t s := ⟨fun i => by rw [hc, hpos], [], by simp, by simp⟩
  have hins : sd_inserted t = sd_inserted s := by simp only [sd_inserted, hp]
  obtain ⟨hres, -, W, h1, h2⟩ := sim_sd_init fuel hins h0
  exact ⟨hres, by rw [h1, h2, hlog]⟩

theorem sd_init_again (fuel : Nat) (s s1 : State) (h : sd_init fuel s = .done true s1)
    (hc : ∀ i, s.card (s1.pos + i) = s.card (s.pos + i)) :
    ∃ s2 W W', sd_init fuel s1 = .done true s2 ∧
      written s1.log = written s.log ++ W ∧
      written s2.log = written s1.log ++ W ∧
      W = List.replicate 13 0xFF ++ W' := by
  obtain ⟨hcard, hidr⟩ := sd_init_card_IDR fuel s s1 h
  have hi := (sd_init_true fuel s s1 h).1
  have hp : sd_inserted s = sd_inserted s1 := by
    simp only [sd_inserted, hidr]
  have h0 : Sim0 s s1 s s1 :=
    ⟨fun i => by rw [hcard]; exact (hc i).symm, [], by simp, by simp⟩
  obtain ⟨hres, -, W, h1, h2⟩ := sim_sd_init fuel hp h0
  obtain ⟨W', hW'⟩ := sd_init_written_start fuel s hi
  rw [h] at hres h1 hW'
  have hW : W = List.replicate 13 0xFF ++ W' :=
    List.append_cancel_left (h1.symm.trans hW')
  cases e : sd_init fuel s1 with
  | fuelOut s2 => rw [e] at hres; exact absurd hres (by simp [Outcome.result])
  | done b s2 =>
    rw [e] at hres h2
    have hb : b = true := by
      simp only [Outcome.result, Option.some.injEq] at hres
      exact hres.symm
    subst hb
    exact ⟨s2, W, W', rfl, h1, h2, hW⟩

/-- C12. The result of `sd_init` and the bytes it writes to the bus do not depend on the
initial data register or on the initial content of the static buffer of `_read_R3`: with
either replaced, the run ends the same way (same return value, or both out of fuel) with
the same bytes written. And when a call returned true and the card then sends the same
bytes again, a second call returns true as well and writes exactly the bytes the first
call wrote, starting with the 13 filler bytes of power-on and flush. -/
theorem sd_init_no_hidden_state (fuel : Nat) (s : State) :
    (∀ (d : Nat) (r : Nat → Nat),
      (sd_init fuel { s with SPI2_DR := d, resp := r }).result = (sd_init fuel s).result ∧
      written (sd_init fuel { s with SPI2_DR := d, resp := r }).state.log
        = written (sd_init fuel s).state.log) ∧
    (∀ s1, sd_init fuel s = .done true s1 →
      (∀ i, s.card (s1.pos + i) = s.card (s.pos + i)) →
      ∃ s2 W W', sd_init fuel s1 = .done true s2 ∧
        written s1.log = written s.log ++ W ∧
        written s2.log = written s1.log ++ W ∧
        W = List.replicate 13 0xFF ++ W') := by
  exact ⟨fun d r => sd_init_same_input fuel s _ rfl rfl rfl rfl,
    fun s1 h hc => sd_init_again fuel s s1 h hc⟩

theorem cardRepeat_again (i : Nat) : cardRepeat (76 + i) = cardRepeat (0 + i) := by
  simp [cardRepeat, Nat.add_mod_left]

theorem sd_init_no_hidden_state_witness :
    sd_init 1 stateRepeat = .done true (sd_init 1 stateRepeat).state ∧
    (sd_init 1 stateRepeat).state.pos = 76 ∧
    (∀ i, stateRepeat.card ((sd_init 1 stateRepeat).state.pos + i)
      = stateRepeat.card (stateRepeat.pos + i)) ∧
    ∃ s2 W W', sd_init 1 (sd_init 1 stateRepeat).state = .done true s2 ∧
      written (sd_init 1 stateRepeat).state.log = written stateRepeat.log ++ W ∧
      written s2.log = written (sd_init 1 stateRepeat).state.log ++ W ∧
      W = List.replicate 13 0xFF ++ W' :=
  ⟨rfl, by decide, cardRepeat_again,
    (sd_init_no_hidden_state 1 stateRepeat).2 _ rfl cardRepeat_again⟩

/-! ### The wait for the data token, byte by byte -/

theorem wait_spec (token fuel m : Nat) (s : State) (hm : lineByte s m = token)
    (hlt : ∀ j, j < m → lineByte s j ≠ token) :
    (m ≤ fuel → _wait_for_data_token token fuel s = .done true (_dummy_write m s)) ∧
    (fuel < m → _wait_for_data_token token fuel s = .fuelOut (_dummy_write fuel s)) := by
  induction fuel generalizing s m with
  | zero =>
    cases m with
    | zero =>
      have h0 : sd_read s = token := hm
      exact ⟨fun _ => by simp [_wait_for_data_token, h0, _dummy_write],
        fun h => absurd h (Nat.lt_irrefl 0)⟩
    | succ m =>
      have h0 : sd_read s ≠ token := hlt 0 (Nat.succ_pos m)
      exact ⟨fun h => absurd h (by omega),
        fun _ => by simp [_wait_for_data_token, h0, _dummy_write]⟩
  | succ fuel ih =>
    cases m with
    | zero =>
      have h0 : sd_read s = token := hm
      exact ⟨fun _ => by simp [_wait_for_data_token, h0, _dummy_write],
        fun h => absurd h (by omega)⟩
    | succ m =>
      have h0 : sd_read s ≠ token := hlt 0 (Nat.succ_pos m)
      have := ih m (_dummy_write 1 s) (by rw [lineByte_succ]; exact hm)
        (fun j hj => by rw [lineByte_succ]; exact hlt (j + 1) (by omega))
      constructor
      · intro h
        simp only [_wait_for_data_token, bne_iff_ne, ne_eq, h0, not_false_eq_true, if_true]
        rw [this.1 (by omega)]; rfl
      · intro h
        simp only [_wait_for_data_token, bne_iff_ne, ne_eq, h0, not_false_eq_true, if_true]
        rw [this.2 (by omega)]; rfl

/-- C6. Let the line first read `0xFF` after `n` drain writes, let `s1` be the state once
the READ_SINGLE_BLOCK frame is out, let the R1 polled there be `0x00`, leaving state `s2`,
and let the line first read `0xFE` after `m` further writes, in state `s3`. Then, with
fuel for `n` drain passes and `m` wait passes, the wait returns true in `s3` and
`sd_read_block` returns after exactly 512 filler writes followed by 2 more: `buffer[i]`
holds the `i`-th card byte after the token for every `i < 512`, the two CRC bytes are
received last and stored nowhere, and no buffer index from 512 on is written. -/
theorem sd_read_block_data (fuel addr n m : Nat) (s s1 s2 s3 : State)
    (hn : lineByte s n = 0xFF) (hnl : ∀ j, j < n → lineByte s j ≠ 0xFF) (hnf : n ≤ fuel)
    (hs1 : s1 = sentState READ_SINGLE_BLOCK (some (sd_read_block_args addr))
      (_dummy_write n s))
    (hr : (_read_R1 s1).1 = 0x00) (hs2 : s2 = (_read_R1 s1).2)
    (hm : lineByte s2 m = 0xFE) (hml : ∀ j, j < m → lineByte s2 j ≠ 0xFE) (hmf : m ≤ fuel)
    (hs3 : s3 = _dummy_write m s2) :
    _send_cmd fuel READ_SINGLE_BLOCK (some (sd_read_block_args addr)) s = .done () s1 ∧
    _wait_for_data_token CMD_17_OK fuel s2 = .done true s3 ∧
    s3.log = s2.log ++ fill m ∧ s3.pos = s2.pos + m ∧ s3.card = s.card ∧
    sd_read s3 = 0xFE ∧ SD_BLOCK_SIZE = 512 ∧
    ∃ s', sd_read_block fuel addr s = .done () s' ∧
      s'.log = s3.log ++ fill 512 ++ fill 2 ∧
      s'.pos = s3.pos + 512 + 2 ∧
      (∀ i, i < 512 → s'.buffer i = s3.card (s3.pos + i) % 256) ∧
      (∀ i, 512 ≤ i → s'.buffer i = s.buffer i) ∧
      s'.SPI2_DR = s3.card (s3.pos + 513) := by
  have h1 : _send_cmd fuel READ_SINGLE_BLOCK (some (sd_read_block_args addr)) s
      = .done () s1 := by
    rw [hs1]
    simp [_send_cmd, (rest_spec fuel n s hn hnl).1 hnf, sentState]
  have hw : _wait_for_data_token CMD_17_OK fuel (_read_R1 s1).2 = .done true s3 := by
    rw [hs3, ← hs2]
    exact (wait_spec CMD_17_OK fuel m s2 hm hml).1 hmf
  have hb3 : s3.buffer = s.buffer := by
    have e1 := send_cmd_buffer fuel READ_SINGLE_BLOCK (some (sd_read_block_args addr)) s
    have e3 := wait_buffer CMD_17_OK fuel (_read_R1 s1).2
    rw [h1] at e1
    rw [hw] at e3
    exact e3.trans ((read_R1_buffer s1).trans e1)
  have hc3 : s3.card = s.card := by
    have hc1 : s1.card = s.card := by
      rw [hs1]
      exact ((inv_sentState card_IDR_inv _ _ _).1).trans (dummy_write_card n s)
    rw [hs3, dummy_write_card, hs2, read_R1_card, hc1]
  refine ⟨h1, by rw [← hs2] at hw; exact hw, by rw [hs3, dummy_write_log],
    by rw [hs3, dummy_write_pos], hc3, (wait_done _ _ _ _ _ hw).2, rfl, _,
    read_block_token fuel addr s s1 s3 h1 hr hw, ?_, ?_, ?_, ?_, ?_⟩
  · rw [dummy_write_log, read_block_loop_log]; rfl
  · rw [dummy_write_pos, read_block_loop_pos]; rfl
  · intro i hi
    rw [dummy_write_buffer, read_block_loop_buffer]
    have : 0 ≤ i ∧ i < 0 + SD_BLOCK_SIZE := ⟨Nat.zero_le _, by simpa [SD_BLOCK_SIZE] using hi⟩
    rw [if_pos this, Nat.sub_zero]
  · intro i hi
    rw [dummy_write_buffer, read_block_loop_buffer]
    have : ¬ (0 ≤ i ∧ i < 0 + SD_BLOCK_SIZE) := by simp [SD_BLOCK_SIZE]; omega
    rw [if_neg this, hb3]
  · rw [dummy_write_DR, read_block_loop_pos, read_block_loop_card]
    rfl

theorem stateR_no_token_yet (j : Nat) (hj : j < 1) :
    lineByte (_read_R1 stateR1).2 j ≠ 0xFE := by
  have : j = 0 := by omega
  subst this
  decide

theorem sd_read_block_data_witness :
    (lineByte stateR 0 = 0xFF ∧ (0 : Nat) ≤ 1 ∧
      stateR1 = sentState READ_SINGLE_BLOCK (some (sd_read_block_args 0x1234))
        (_dummy_write 0 stateR) ∧
      (_read_R1 stateR1).1 = 0x00 ∧
      lineByte (_read_R1 stateR1).2 1 = 0xFE ∧
      (∀ j, j < 1 → lineByte (_read_R1 stateR1).2 j ≠ 0xFE) ∧ (1 : Nat) ≤ 1 ∧
      stateR3 = _dummy_write 1 (_read_R1 stateR1).2 ∧ stateR3.pos = 8) ∧
    (_send_cmd 1 READ_SINGLE_BLOCK (some (sd_read_block_args 0x1234)) stateR
      = .done () stateR1 ∧
    _wait_for_data_token CMD_17_OK 1 (_read_R1 stateR1).2 = .done true stateR3 ∧
    stateR3.log = (_read_R1 stateR1).2.log ++ fill 1 ∧
    stateR3.pos = (_read_R1 stateR1).2.pos + 1 ∧ stateR3.card = stateR.card ∧
    sd_read stateR3 = 0xFE ∧ SD_BLOCK_SIZE = 512 ∧
    ∃ s', sd_read_block 1 0x1234 stateR = .done () s' ∧
      s'.log = stateR3.log ++ fill 512 ++ fill 2 ∧
      s'.pos = stateR3.pos + 512 + 2 ∧
      (∀ i, i < 512 → s'.buffer i = stateR3.card (stateR3.pos + i) % 256) ∧
      (∀ i, 512 ≤ i → s'.buffer i = stateR.buffer i) ∧
      s'.SPI2_DR = stateR3.card (stateR3.pos + 513)) :=
  ⟨⟨by decide, by decide, rfl, by decide, by decide, stateR_no_token_yet, le_refl 1, rfl,
      by decide⟩,
    sd_read_block_data 1 0x1234 0 1 stateR stateR1 (_read_R1 stateR1).2 stateR3
      (by decide) (fun j hj => absurd hj (Nat.not_lt_zero j)) (by decide) rfl (by decide) rfl
      (by decide) stateR_no_token_yet (le_refl 1) rfl⟩

end SD

namespace Buttons

theorem btn_pressed_flags (idr btn : Nat) (f g : Nat → Bool) :
    btn_pressed ⟨idr, f⟩ btn = btn_pressed ⟨idr, g⟩ btn := rfl

theorem btn_released_result (L btn : Nat) (s : State) :
    (btn_released L btn s).1 = (!btn_pressed s btn && s.btn_was_pressed (btn - L)) := by
  unfold btn_released
  by_cases hp : btn_pressed s btn = true <;> by_cases hw : s.btn_was_pressed (btn - L) = true
    <;> simp [hp, hw]

theorem btn_released_flag (L btn : Nat) (s : State) :
    (btn_released L btn s).2.btn_was_pressed (btn - L) = btn_pressed s btn := by
  unfold btn_released
  by_cases hp : btn_pressed s btn = true <;> by_cases hw : s.btn_was_pressed (btn - L) = true
    <;> simp [hp, hw]

theorem btn_released_other (L btn j : Nat) (s : State) (hj : j ≠ btn - L) :
    (btn_released L btn s).2.btn_was_pressed j = s.btn_was_pressed j := by
  unfold btn_released
  by_cases hp : btn_pressed s btn = true <;> by_cases hw : s.btn_was_pressed (btn - L) = true
    <;> simp [hp, hw, Function.update, hj]

theorem flagsAfter_last (L btn : Nat) (hb : L ≤ btn) (cs : List (Nat × Nat))
    (hcs : ∀ c ∈ cs, L ≤ c.1) (f : Nat → Bool) :
    flagsAfter L f cs (btn - L) = lastPressed btn (f (btn - L)) cs := by
  induction cs generalizing f with
  | nil => rfl
  | cons c cs ih =>
    have hc : L ≤ c.1 := hcs c (List.mem_cons_self _ _)
    simp only [flagsAfter, lastPressed]
    rw [ih (fun c' h => hcs c' (List.mem_cons_of_mem _ h))]
    by_cases e : c.1 = btn
    · rw [if_pos e, e, btn_released_flag]
      rfl
    · rw [if_neg e, btn_released_other L c.1 (btn - L) _ (by omega)]

theorem flagsAfter_others (L btn : Nat) (hb : L ≤ btn) (cs : List (Nat × Nat))
    (hcs : ∀ c ∈ cs, L ≤ c.1 ∧ c.1 ≠ btn) (f : Nat → Bool) :
    flagsAfter L f cs (btn - L) = f (btn - L) := by
  induction cs generalizing f with
  | nil => rfl
  | cons c cs ih =>
    have hc := hcs c (List.mem_cons_self _ _)
    simp only [flagsAfter]
    rw [ih (fun c' h => hcs c' (List.mem_cons_of_mem _ h)),
      btn_released_other L c.1 (btn - L) _ (by omega)]

/-- C19. After any sequence `cs` of calls from start-up, a call of `btn_released` for
`btn` at input level `idr` returns true exactly when `btn` is not pressed now and was
pressed at the last call made for it (false if there was none). After the call the flag
of `btn` equals the level just sampled and every other flag is unchanged; and if the
call returned true, the next call for `btn`, whatever calls for other buttons come in
between, returns false. -/
theorem btn_released_edge (L btn idr : Nat) (cs : List (Nat × Nat)) (hb : L ≤ btn)
    (hcs : ∀ c ∈ cs, L ≤ c.1) :
    (btn_released L btn ⟨idr, flagsAfter L (fun _ => false) cs⟩).1 =
      (!btn_pressed ⟨idr, fun _ => false⟩ btn && lastPressed btn false cs) ∧
    ((∀ c ∈ cs, c.1 ≠ btn) →
      (btn_released L btn ⟨idr, flagsAfter L (fun _ => false) cs⟩).1 = false) ∧
    (btn_released L btn ⟨idr, flagsAfter L (fun _ => false) cs⟩).2.btn_was_pressed (btn - L)
      = btn_pressed ⟨idr, fun _ => false⟩ btn ∧
    (∀ j, j ≠ btn - L →
      (btn_released L btn ⟨idr, flagsAfter L (fun _ => false) cs⟩).2.btn_was_pressed j
        = flagsAfter L (fun _ => false) cs j) ∧
    ((btn_released L btn ⟨idr, flagsAfter L (fun _ => false) cs⟩).1 = true →
      ∀ (cs' : List (Nat × Nat)) (idr' : Nat), (∀ c ∈ cs', L ≤ c.1 ∧ c.1 ≠ btn) →
        (btn_released L btn ⟨idr', flagsAfter L
          (btn_released L btn ⟨idr, flagsAfter L (fun _ => false) cs⟩).2.btn_was_pressed
          cs'⟩).1 = false) := by
  have hres := btn_released_result L btn ⟨idr, flagsAfter L (fun _ => false) cs⟩
  have hlast := flagsAfter_last L btn hb cs hcs (fun _ => false)
  refine ⟨?_, ?_, btn_released_flag L btn _, fun j hj => btn_released_other L btn j _ hj, ?_⟩
  · rw [hres, show (State.mk idr (flagsAfter L (fun _ => false) cs)).btn_was_pressed (btn - L)
      = lastPressed btn false cs from hlast]
    rfl
  · intro hno
    have h0 := flagsAfter_others L btn hb cs (fun c h => ⟨hcs c h, hno c h⟩) (fun _ => false)
    rw [hres, show (State.mk idr (flagsAfter L (fun _ => false) cs)).btn_was_pressed (btn - L)
      = false from h0]
    simp
  · intro htrue cs' idr' hcs'
    rw [btn_released_result]
    have hfl : (btn_released L btn ⟨idr, flagsAfter L (fun _ => false) cs⟩).2.btn_was_pressed
        (btn - L) = false := by
      rw [btn_released_flag]
      rw [hres] at htrue
      simp only [Bool.and_eq_true, Bool.not_eq_true'] at htrue
      exact htrue.1
    have := flagsAfter_others L btn hb cs' hcs'
      (btn_released L btn ⟨idr, flagsAfter L (fun _ => false) cs⟩).2.btn_was_pressed
    rw [hfl] at this
    show (!btn_pressed _ btn && flagsAfter L _ cs' (btn - L)) = false
    rw [this]
    simp

theorem btn_released_edge_witness :
    (4 ≤ 5 ∧ (∀ c ∈ [(5, 0x00), (4, 0x00), (5, 0x20)], 4 ≤ (c : Nat × Nat).1)) ∧
    (btn_released 4 5 ⟨0x00, flagsAfter 4 (fun _ => false) []⟩).1 = false ∧
    (btn_released 4 5 ⟨0x20, flagsAfter 4 (fun _ => false) [(5, 0x00), (4, 0x00)]⟩).1 = true ∧
    (btn_released 4 5 ⟨0x20, flagsAfter 4 (fun _ => false)
        [(5, 0x00), (4, 0x00), (5, 0x20)]⟩).1 =
      (!btn_pressed ⟨0x20, fun _ => false⟩ 5 &&
        lastPressed 5 false [(5, 0x00), (4, 0x00), (5, 0x20)]) ∧
    (btn_released 4 5 ⟨0x20, flagsAfter 4 (fun _ => false)
        [(5, 0x00), (4, 0x00), (5, 0x20)]⟩).1 = false :=
  ⟨⟨by decide, by decide⟩, by decide, by decide,
    (btn_released_edge 4 5 0x20 [(5, 0x00), (4, 0x00), (5, 0x20)] (by decide)
      (by decide)).1,
    by decide⟩

end Buttons
